import Mathlib

/-!
Verification of the Samsung OneDRAM modem-control / SIPC driver pair
(`drivers/misc/samsung_modemctl/modem_ctl.c`, `drivers/net/sipc/modem_io.c`,
and the SIPC core in `drivers/net/sipc/core.c`, `miscdev.c`, `netdev.c`).

The C sources are shallowly embedded: C unsigned arithmetic is modelled on `Nat`
with explicit `% 2 ^ 32` (resp. `% 2 ^ 64` for `size_t`) wherever the C
computation can wrap, byte memory is modelled as `Nat → Nat`, and the Linux
`CIRC_*` macros from `include/linux/circ_buf.h` are translated literally
(bitwise masking with `size - 1`).
-/

/-- `2 ^ 32`, the modulus of C `unsigned int` arithmetic used by the
ring-buffer index computations. -/
def U32 : Nat := 2 ^ 32

/-- C unsigned 32-bit subtraction `a - b` (wrapping modulo `2 ^ 32`). -/
def u32sub (a b : Nat) : Nat := (a % U32 + (U32 - b % U32)) % U32

/-- `CIRC_CNT(head,tail,size)` from `include/linux/circ_buf.h`:
`((head) - (tail)) & ((size)-1)` on `unsigned` values. -/
def circ_cnt (head tail size : Nat) : Nat := u32sub head tail &&& (size - 1)

/-- `CIRC_SPACE(head,tail,size)` from `include/linux/circ_buf.h`:
`CIRC_CNT((tail),((head)+1),(size))`. -/
def circ_space (head tail size : Nat) : Nat := circ_cnt tail (head + 1) size

/-- `CIRC_CNT_TO_END(head,tail,size)` from `include/linux/circ_buf.h`:
`end = size - tail; n = (head + end) & (size-1); n < end ? n : end`.
The C macro computes on `int`; under the driver invariant `tail < size`
the intermediate values are non-negative, so `Nat` subtraction agrees. -/
def circ_cnt_to_end (head tail size : Nat) : Nat :=
  if (head + (size - tail)) &&& (size - 1) < size - tail
  then (head + (size - tail)) &&& (size - 1)
  else size - tail

/-- `CIRC_SPACE_TO_END(head,tail,size)` from `include/linux/circ_buf.h`:
`end = size - 1 - head; n = (end + tail) & (size-1); n <= end ? n : end+1`.
As for `circ_cnt_to_end`, under `head < size` the C `int` arithmetic is
non-negative and `Nat` subtraction agrees. -/
def circ_space_to_end (head tail size : Nat) : Nat :=
  if (size - 1 - head + tail) &&& (size - 1) ≤ size - 1 - head
  then (size - 1 - head + tail) &&& (size - 1)
  else size - 1 - head + 1

theorem u32_pos : 0 < U32 := by decide

theorem mod_u32_mod_pow {k : Nat} (hk : k ≤ 32) (x : Nat) :
    x % U32 % 2 ^ k = x % 2 ^ k :=
  Nat.mod_mod_of_dvd x (pow_dvd_pow 2 hk)

theorem pow_le_u32 {k : Nat} (hk : k ≤ 32) : 2 ^ k ≤ U32 :=
  Nat.pow_le_pow_right (by decide) hk

/-- On a power-of-two ring size the mask computed by `CIRC_CNT` is a true
modulus: the wrapping `unsigned` subtraction followed by `& (size - 1)`
equals `(head + size - tail) % size`. -/
theorem circ_cnt_eq {a b s k : Nat} (hs : s = 2 ^ k) (hk : k ≤ 32)
    (hb : b ≤ s) : circ_cnt a b s = (a + s - b) % s := by
  subst hs
  have hU := pow_le_u32 hk
  have hdvd : (2 ^ k : Nat) ∣ U32 := pow_dvd_pow 2 hk
  have hbm : b % U32 < U32 := Nat.mod_lt _ u32_pos
  unfold circ_cnt u32sub
  rw [Nat.and_pow_two_sub_one_eq_mod, mod_u32_mod_pow hk]
  have h1 : a % U32 ≡ a [MOD 2 ^ k] := (Nat.mod_modEq a U32).of_dvd hdvd
  have hz1 : U32 ≡ 2 ^ k [MOD 2 ^ k] :=
    ((Nat.modEq_zero_iff_dvd).2 hdvd).trans ((Nat.modEq_zero_iff_dvd).2 dvd_rfl).symm
  have hb1 : b % U32 ≡ b [MOD 2 ^ k] := (Nat.mod_modEq b U32).of_dvd hdvd
  have h2 : U32 - b % U32 ≡ 2 ^ k - b [MOD 2 ^ k] := by
    have e1 : (U32 - b % U32) + b % U32 = U32 := by omega
    have e2 : (2 ^ k - b) + b = 2 ^ k := by omega
    have h3 : (U32 - b % U32) + b % U32 ≡ (2 ^ k - b) + b [MOD 2 ^ k] := by
      rw [e1, e2]; exact hz1
    exact Nat.ModEq.add_right_cancel hb1 h3
  have h4 : a % U32 + (U32 - b % U32) ≡ a + (2 ^ k - b) [MOD 2 ^ k] := h1.add h2
  have h5 : a + (2 ^ k - b) = a + 2 ^ k - b := by omega
  rw [h5] at h4
  exact h4

/-- `CIRC_SPACE` on a power-of-two ring is `(tail + size - head - 1) % size`. -/
theorem circ_space_eq {h t s k : Nat} (hs : s = 2 ^ k) (hk : k ≤ 32)
    (hh : h < s) : circ_space h t s = (t + s - h - 1) % s := by
  have h1 := circ_cnt_eq (a := t) (b := h + 1) hs hk (by omega)
  unfold circ_space
  rw [Nat.sub_sub]
  exact h1

theorem pow_pos_nat (k : Nat) : 0 < 2 ^ k := Nat.pos_pow_of_pos k (by decide)

theorem circ_cnt_lt {h t s k : Nat} (hs : s = 2 ^ k) :
    circ_cnt h t s < s := by
  subst hs
  unfold circ_cnt
  rw [Nat.and_pow_two_sub_one_eq_mod]
  exact Nat.mod_lt _ (pow_pos_nat k)

theorem circ_space_lt {h t s k : Nat} (hs : s = 2 ^ k) :
    circ_space h t s < s := circ_cnt_lt hs

/-- Count plus space is always `size - 1` on a power-of-two ring. -/
theorem circ_cnt_add_space {h t s k : Nat} (hs : s = 2 ^ k) (hk : k ≤ 32)
    (hh : h < s) (ht : t < s) :
    circ_cnt h t s + circ_space h t s = s - 1 := by
  rw [circ_cnt_eq hs hk (le_of_lt ht), circ_space_eq hs hk hh]
  have hs1 : 0 < s := by subst hs; exact pow_pos_nat k
  rcases le_or_lt t h with hth | hht
  · have h1 : (h + s - t) % s = h - t := by
      have e : h + s - t = (h - t) + s := by omega
      rw [e, Nat.add_mod_right, Nat.mod_eq_of_lt (by omega)]
    have h2 : (t + s - h - 1) % s = t + s - h - 1 := Nat.mod_eq_of_lt (by omega)
    omega
  · have h1 : (h + s - t) % s = h + s - t := Nat.mod_eq_of_lt (by omega)
    have h2 : (t + s - h - 1) % s = t - h - 1 := by
      have e : t + s - h - 1 = (t - h - 1) + s := by omega
      rw [e, Nat.add_mod_right, Nat.mod_eq_of_lt (by omega)]
    omega

/-- `CIRC_SPACE_TO_END` equals the free space when that space does not
reach past the buffer end, and `size - head` (the room up to the physical
end of the buffer) otherwise. -/
theorem circ_space_to_end_eq {h t s k : Nat} (hs : s = 2 ^ k) (hk : k ≤ 32)
    (hh : h < s) :
    circ_space_to_end h t s =
      if circ_space h t s ≤ s - 1 - h then circ_space h t s else s - h := by
  have hmask : (s - 1 - h + t) &&& (s - 1) = (s - 1 - h + t) % s := by
    subst hs; exact Nat.and_pow_two_sub_one_eq_mod _ _
  have harith : (s - 1 - h + t) % s = (t + s - h - 1) % s := by
    congr 1
    omega
  have hsp := circ_space_eq hs hk (t := t) hh
  unfold circ_space_to_end
  rw [hmask, harith, ← hsp]
  split
  · rfl
  · omega

/-- `CIRC_CNT_TO_END` equals the count when the readable bytes do not wrap,
and `size - tail` (bytes up to the physical end of the buffer) otherwise. -/
theorem circ_cnt_to_end_eq {h t s k : Nat} (hs : s = 2 ^ k) (hk : k ≤ 32)
    (ht : t < s) :
    circ_cnt_to_end h t s =
      if circ_cnt h t s < s - t then circ_cnt h t s else s - t := by
  have hmask : (h + (s - t)) &&& (s - 1) = (h + (s - t)) % s := by
    subst hs; exact Nat.and_pow_two_sub_one_eq_mod _ _
  have harith : (h + (s - t)) % s = (h + s - t) % s := by
    congr 1
    omega
  have hc := circ_cnt_eq (a := h) hs hk (le_of_lt ht)
  unfold circ_cnt_to_end
  rw [hmask, harith, ← hc]

/-! ## Ring-buffer I/O layer (`drivers/net/sipc/modem_io.c`)

`struct m_fifo` holds a head index, a tail index, a power-of-two size and
a byte region inside the shared memory.  The byte region is modelled as a
total function `Nat → Nat`; only indices `< size` are ever read. -/

/-- One `struct m_fifo`: head/tail indices, the FIFO's byte region, the
cached available-space/count (`avail`) and the mailbox signal bits (`bits`)
associated with the FIFO's pipe direction. -/
structure MFifo where
  head : Nat
  tail : Nat
  size : Nat
  data : Nat → Nat
  avail : Nat
  bits : Nat

/-- The driver invariant for a FIFO: indices are in range and the size is a
power of two no larger than `2 ^ 32` (it is a `u32`). -/
structure MFifoInv (q : MFifo) (k : Nat) : Prop where
  hhead : q.head < q.size
  htail : q.tail < q.size
  hsize : q.size = 2 ^ k
  hk32 : k ≤ 32

/-- A C `memcpy(d + pos, src, src.len)` on a byte region. -/
def memwrite (d : Nat → Nat) (pos : Nat) (src : List Nat) : Nat → Nat :=
  fun i => if pos ≤ i ∧ i < pos + src.length then src.getD (i - pos) 0 else d i

/-- `fifo_write` from `modem_io.c`: returns `0` without touching the ring
when free space is short, otherwise copies (splitting in two when the write
wraps past the buffer end) and advances `head` under the size mask. -/
def fifo_write (q : MFifo) (src : List Nat) : MFifo × Nat :=
  if circ_space q.head q.tail q.size < src.length then (q, 0)
  else if src.length ≤ circ_space_to_end q.head q.tail q.size then
    ({ q with data := memwrite q.data q.head src,
              head := (q.head + src.length) &&& (q.size - 1) }, src.length)
  else
    ({ q with data := memwrite (memwrite q.data q.head
                  (src.take (circ_space_to_end q.head q.tail q.size))) 0
                  (src.drop (circ_space_to_end q.head q.tail q.size)),
              head := (q.head + src.length) &&& (q.size - 1) }, src.length)

/-- `fifo_purge` from `modem_io.c`: resets both indices to zero. -/
def fifo_purge (q : MFifo) : MFifo :=
  { q with head := 0, tail := 0 }

/-- `fifo_skip` from `modem_io.c`: advances `tail` under the size mask. -/
def fifo_skip (q : MFifo) (count : Nat) : MFifo :=
  { q with tail := (q.tail + count) &&& (q.size - 1) }

/-- `fifo_count` macro from `modem_io.c`. -/
def fifo_count (q : MFifo) : Nat := circ_cnt q.head q.tail q.size

/-- `fifo_count_end` macro from `modem_io.c`. -/
def fifo_count_end (q : MFifo) : Nat := circ_cnt_to_end q.head q.tail q.size

/-- `fifo_space` macro from `modem_io.c`. -/
def fifo_space (q : MFifo) : Nat := circ_space q.head q.tail q.size

/-- A contiguous slice of the FIFO byte region, as read by a `memcpy` out
of `q.data + start`. -/
def fifo_slice (q : MFifo) (start len : Nat) : List Nat :=
  (List.range len).map (fun i => q.data (start + i))

/-- The readable bytes of a FIFO in FIFO order, exactly as `modem_pipe_recv`
in `modem_io.c` hands them to the receive callback: one chunk when they do
not wrap past the buffer end (`n >= count`), two chunks otherwise. -/
def fifo_read_chunks (q : MFifo) : List Nat :=
  if fifo_count q ≤ fifo_count_end q then
    fifo_slice q q.tail (fifo_count q)
  else
    fifo_slice q q.tail (fifo_count_end q) ++
      fifo_slice q 0 (fifo_count q - fifo_count_end q)

/-! Facts about `fifo_write`. -/

theorem fifo_write_fail {q : MFifo} {src : List Nat}
    (h : fifo_space q < src.length) : fifo_write q src = (q, 0) := by
  have h' : circ_space q.head q.tail q.size < src.length := h
  unfold fifo_write
  rw [if_pos h']

theorem fifo_space_bound {q : MFifo} {k : Nat} (inv : MFifoInv q k) :
    fifo_count q + fifo_space q = q.size - 1 :=
  circ_cnt_add_space inv.hsize inv.hk32 inv.hhead inv.htail

/-- In the wrapping branch of `fifo_write`, the contiguous room up to the
buffer end is exactly `size - head`. -/
theorem fifo_write_wrap_n {q : MFifo} {src : List Nat} {k : Nat}
    (inv : MFifoInv q k) (hfit : src.length ≤ fifo_space q)
    (hlt : circ_space_to_end q.head q.tail q.size < src.length) :
    circ_space_to_end q.head q.tail q.size = q.size - q.head := by
  have he := circ_space_to_end_eq (t := q.tail) inv.hsize inv.hk32 inv.hhead
  rw [he] at hlt ⊢
  split at hlt
  · exact absurd (lt_of_le_of_lt hfit hlt) (lt_irrefl _)
  · rw [if_neg (by assumption)]

theorem fifo_write_shape {q : MFifo} {src : List Nat} {k : Nat}
    (inv : MFifoInv q k) (hfit : src.length ≤ fifo_space q) :
    (fifo_write q src).2 = src.length ∧
    (fifo_write q src).1.head = (q.head + src.length) % q.size ∧
    (fifo_write q src).1.tail = q.tail ∧
    (fifo_write q src).1.size = q.size := by
  have hmask : (q.head + src.length) &&& (q.size - 1) =
      (q.head + src.length) % q.size := by
    rw [inv.hsize]
    exact Nat.and_pow_two_sub_one_eq_mod _ _
  have hfit' : src.length ≤ circ_space q.head q.tail q.size := hfit
  unfold fifo_write
  rw [if_neg (Nat.not_lt.2 hfit')]
  split <;> exact ⟨rfl, hmask, rfl, rfl⟩

theorem fifo_write_inv {q : MFifo} {src : List Nat} {k : Nat}
    (inv : MFifoInv q k) : MFifoInv (fifo_write q src).1 k := by
  rcases Nat.lt_or_ge (fifo_space q) src.length with hlt | hge
  · rw [fifo_write_fail hlt]
    exact inv
  · obtain ⟨-, hh, ht, hs⟩ := fifo_write_shape inv hge
    have hpos : 0 < q.size := by
      rw [inv.hsize]; exact pow_pos_nat k
    exact ⟨by rw [hh, hs]; exact Nat.mod_lt _ hpos,
           by rw [ht, hs]; exact inv.htail,
           by rw [hs]; exact inv.hsize, inv.hk32⟩

/-- Bytes just written: position `head + p` (mod size) holds `src[p]`. -/
theorem fifo_write_data_new {q : MFifo} {src : List Nat} {k : Nat}
    (inv : MFifoInv q k) (hfit : src.length ≤ fifo_space q) :
    ∀ p < src.length,
      (fifo_write q src).1.data ((q.head + p) % q.size) = src.getD p 0 := by
  intro p hp
  have hcnt := fifo_space_bound inv
  have hsp : fifo_space q < q.size := circ_space_lt inv.hsize
  have hc_lt : src.length < q.size := lt_of_le_of_lt hfit hsp
  have hn_le : circ_space_to_end q.head q.tail q.size ≤ q.size - q.head := by
    rw [circ_space_to_end_eq (t := q.tail) inv.hsize inv.hk32 inv.hhead]
    split <;> omega
  have hh := inv.hhead
  have hfit' : src.length ≤ circ_space q.head q.tail q.size := hfit
  unfold fifo_write
  rw [if_neg (Nat.not_lt.2 hfit')]
  split
  · -- no wrap: count <= n
    rename_i hcn
    have hlt : q.head + p < q.size := by omega
    show memwrite q.data q.head src ((q.head + p) % q.size) = src.getD p 0
    rw [Nat.mod_eq_of_lt hlt]
    unfold memwrite
    rw [if_pos ⟨by omega, by omega⟩, Nat.add_sub_cancel_left]
  · -- wrap: n < count
    rename_i hcn
    have hn : circ_space_to_end q.head q.tail q.size = q.size - q.head :=
      fifo_write_wrap_n inv hfit (by omega)
    set n := circ_space_to_end q.head q.tail q.size with hndef
    have hcn' : n < src.length := by omega
    have htake : (src.take n).length = n := by
      simp [Nat.min_eq_left (le_of_lt hcn')]
    have hdrop : (src.drop n).length = src.length - n := by simp
    show memwrite (memwrite q.data q.head (src.take n)) 0 (src.drop n)
        ((q.head + p) % q.size) = src.getD p 0
    rcases Nat.lt_or_ge p n with hpn | hpn
    · have hlt : q.head + p < q.size := by omega
      rw [Nat.mod_eq_of_lt hlt]
      unfold memwrite
      rw [if_neg (by omega), if_pos ⟨by omega, by rw [htake]; omega⟩,
          Nat.add_sub_cancel_left]
      rw [List.getD_eq_getElem?_getD, List.getD_eq_getElem?_getD,
          List.getElem?_take_of_lt hpn]
    · have hmod : (q.head + p) % q.size = p - n := by
        have e : q.head + p = (p - n) + q.size := by omega
        rw [e, Nat.add_mod_right, Nat.mod_eq_of_lt (by omega)]
      rw [hmod]
      unfold memwrite
      rw [if_pos ⟨Nat.zero_le _, by rw [hdrop]; omega⟩]
      rw [List.getD_eq_getElem?_getD, List.getD_eq_getElem?_getD,
          List.getElem?_drop]
      have e2 : n + (p - n - 0) = p := by omega
      rw [e2]

/-- Bytes outside the written window are untouched by `fifo_write`. -/
theorem fifo_write_data_old {q : MFifo} {src : List Nat} {k : Nat}
    (inv : MFifoInv q k) (hfit : src.length ≤ fifo_space q) :
    ∀ idx < q.size, src.length ≤ (idx + q.size - q.head) % q.size →
      (fifo_write q src).1.data idx = q.data idx := by
  intro idx hidx hpos
  have hcnt := fifo_space_bound inv
  have hsp : fifo_space q < q.size := circ_space_lt inv.hsize
  have hc_lt : src.length < q.size := lt_of_le_of_lt hfit hsp
  have hn_le : circ_space_to_end q.head q.tail q.size ≤ q.size - q.head := by
    rw [circ_space_to_end_eq (t := q.tail) inv.hsize inv.hk32 inv.hhead]
    split <;> omega
  have hh := inv.hhead
  have hfit' : src.length ≤ circ_space q.head q.tail q.size := hfit
  unfold fifo_write
  rw [if_neg (Nat.not_lt.2 hfit')]
  split
  · rename_i hcn
    show memwrite q.data q.head src idx = q.data idx
    unfold memwrite
    rw [if_neg ?_]
    rintro ⟨h1, h2⟩
    have e : (idx + q.size - q.head) % q.size = idx - q.head := by
      have e1 : idx + q.size - q.head = (idx - q.head) + q.size := by omega
      rw [e1, Nat.add_mod_right, Nat.mod_eq_of_lt (by omega)]
    omega
  · rename_i hcn
    have hn : circ_space_to_end q.head q.tail q.size = q.size - q.head :=
      fifo_write_wrap_n inv hfit (by omega)
    set n := circ_space_to_end q.head q.tail q.size with hndef
    have hcn' : n < src.length := by omega
    have htake : (src.take n).length = n := by
      simp [Nat.min_eq_left (le_of_lt hcn')]
    have hdrop : (src.drop n).length = src.length - n := by simp
    show memwrite (memwrite q.data q.head (src.take n)) 0 (src.drop n) idx =
      q.data idx
    unfold memwrite
    rw [if_neg ?_, if_neg ?_]
    · rintro ⟨h1, h2⟩
      rw [htake] at h2
      have e : (idx + q.size - q.head) % q.size = idx - q.head := by
        have e1 : idx + q.size - q.head = (idx - q.head) + q.size := by omega
        rw [e1, Nat.add_mod_right, Nat.mod_eq_of_lt (by omega)]
      omega
    · rintro ⟨h1, h2⟩
      rw [hdrop] at h2
      have e : (idx + q.size - q.head) % q.size = idx + n := by
        rw [Nat.mod_eq_of_lt (by omega)]
        omega
      omega

/-- Reassembling a list from its indexed reads. -/
theorem map_getD_range (l : List Nat) :
    (List.range l.length).map (fun i => l.getD i 0) = l := by
  apply List.ext_getElem
  · simp
  · intro i h1 h2
    simp [List.getD_eq_getElem?_getD, List.getElem?_eq_getElem h2]

theorem fifo_count_write {q : MFifo} {src : List Nat} {k : Nat}
    (inv : MFifoInv q k) (hfit : src.length ≤ fifo_space q) :
    fifo_count (fifo_write q src).1 = fifo_count q + src.length := by
  obtain ⟨-, hh, ht, hs⟩ := fifo_write_shape inv hfit
  have hpos : 0 < q.size := by rw [inv.hsize]; exact pow_pos_nat k
  have hbound := fifo_space_bound inv
  have htl := inv.htail
  have hhl := inv.hhead
  have hcq : fifo_count q = (q.head + q.size - q.tail) % q.size := by
    unfold fifo_count
    rw [circ_cnt_eq inv.hsize inv.hk32 (le_of_lt inv.htail)]
  unfold fifo_count
  rw [hh, ht, hs, circ_cnt_eq inv.hsize inv.hk32 (le_of_lt inv.htail)]
  have e1 : (q.head + src.length) % q.size + q.size - q.tail
      = (q.head + src.length) % q.size + (q.size - q.tail) := by omega
  rw [e1]
  have m1 : (q.head + src.length) % q.size + (q.size - q.tail)
      ≡ q.head + src.length + (q.size - q.tail) [MOD q.size] :=
    (Nat.mod_modEq _ _).add_right _
  have e2 : q.head + src.length + (q.size - q.tail)
      = (q.head + q.size - q.tail) + src.length := by omega
  have m2 : q.head + q.size - q.tail + src.length
      ≡ fifo_count q + src.length [MOD q.size] := by
    rw [hcq]
    exact ((Nat.mod_modEq _ _).symm).add_right _
  calc ((q.head + src.length) % q.size + (q.size - q.tail)) % q.size
      = (q.head + src.length + (q.size - q.tail)) % q.size := m1
    _ = (q.head + q.size - q.tail + src.length) % q.size := by rw [e2]
    _ = (fifo_count q + src.length) % q.size := m2
    _ = fifo_count q + src.length := Nat.mod_eq_of_lt (by omega)

/-- The chunked drain of `modem_pipe_recv` equals the modular view of the
ring contents. -/
theorem fifo_read_chunks_eq {q : MFifo} {k : Nat} (inv : MFifoInv q k) :
    fifo_read_chunks q =
      (List.range (fifo_count q)).map (fun i => q.data ((q.tail + i) % q.size)) := by
  have hcnt_lt : fifo_count q < q.size := circ_cnt_lt inv.hsize
  have hce : fifo_count_end q =
      if fifo_count q < q.size - q.tail then fifo_count q else q.size - q.tail :=
    circ_cnt_to_end_eq (h := q.head) inv.hsize inv.hk32 inv.htail
  have htail := inv.htail
  unfold fifo_read_chunks
  split
  · rename_i hguard
    have hnowrap : fifo_count q ≤ q.size - q.tail := by
      rw [hce] at hguard
      split at hguard <;> omega
    unfold fifo_slice
    apply List.map_congr_left
    intro i hi
    rw [List.mem_range] at hi
    rw [Nat.mod_eq_of_lt (by omega)]
  · rename_i hguard
    have hwrap : q.size - q.tail < fifo_count q := by
      rw [hce] at hguard
      split at hguard <;> omega
    have hn : fifo_count_end q = q.size - q.tail := by
      rw [hce, if_neg (by omega)]
    rw [hn]
    have hsplit : fifo_count q = (q.size - q.tail) + (fifo_count q - (q.size - q.tail)) := by
      omega
    conv_rhs => rw [hsplit, List.range_add, List.map_append, List.map_map]
    congr 1
    · unfold fifo_slice
      apply List.map_congr_left
      intro i hi
      rw [List.mem_range] at hi
      rw [Nat.mod_eq_of_lt (by omega)]
    · unfold fifo_slice
      apply List.map_congr_left
      intro i hi
      rw [List.mem_range] at hi
      show q.data (0 + i) = q.data ((q.tail + (q.size - q.tail + i)) % q.size)
      have e : q.tail + (q.size - q.tail + i) = i + q.size := by omega
      rw [e, Nat.add_mod_right, Nat.mod_eq_of_lt (by omega), Nat.zero_add]

/-- Writing within free space appends the written bytes, in order, to the
readable contents of the ring, however the write wrapped. -/
theorem fifo_drain_write {q : MFifo} {src : List Nat} {k : Nat}
    (inv : MFifoInv q k) (hfit : src.length ≤ fifo_space q) :
    fifo_read_chunks (fifo_write q src).1 = fifo_read_chunks q ++ src := by
  obtain ⟨-, hh, ht, hs⟩ := fifo_write_shape inv hfit
  have inv' := @fifo_write_inv q src k inv
  have hcnt := fifo_count_write inv hfit
  have hbound := fifo_space_bound inv
  have hcnt_lt : fifo_count q < q.size := circ_cnt_lt inv.hsize
  have hspace_eq : fifo_space q = (q.tail + q.size - q.head - 1) % q.size :=
    circ_space_eq inv.hsize inv.hk32 inv.hhead
  have hcq : fifo_count q = (q.head + q.size - q.tail) % q.size := by
    unfold fifo_count
    rw [circ_cnt_eq inv.hsize inv.hk32 (le_of_lt inv.htail)]
  have hpos : 0 < q.size := by rw [inv.hsize]; exact pow_pos_nat k
  have hh_lt := inv.hhead
  have ht_lt := inv.htail
  rw [fifo_read_chunks_eq inv', fifo_read_chunks_eq inv, hcnt, ht, hs,
      List.range_add, List.map_append, List.map_map]
  congr 1
  · apply List.map_congr_left
    intro i hi
    rw [List.mem_range] at hi
    apply fifo_write_data_old inv hfit _ (Nat.mod_lt _ hpos)
    -- the read position is outside the freshly written window
    have e1 : (q.tail + i) % q.size + q.size - q.head
        = (q.tail + i) % q.size + (q.size - q.head) := by omega
    rw [e1]
    have m1 : (q.tail + i) % q.size + (q.size - q.head)
        ≡ q.tail + i + (q.size - q.head) [MOD q.size] :=
      (Nat.mod_modEq _ _).add_right _
    have e2 : q.tail + i + (q.size - q.head)
        = (q.tail + q.size - q.head - 1) + (i + 1) := by omega
    have m2 : q.tail + q.size - q.head - 1 + (i + 1)
        ≡ fifo_space q + (i + 1) [MOD q.size] := by
      rw [hspace_eq]
      exact ((Nat.mod_modEq _ _).symm).add_right _
    have hfinal : ((q.tail + i) % q.size + (q.size - q.head)) % q.size
        = fifo_space q + (i + 1) := by
      calc ((q.tail + i) % q.size + (q.size - q.head)) % q.size
          = (q.tail + i + (q.size - q.head)) % q.size := m1
        _ = (q.tail + q.size - q.head - 1 + (i + 1)) % q.size := by rw [e2]
        _ = (fifo_space q + (i + 1)) % q.size := m2
        _ = fifo_space q + (i + 1) := Nat.mod_eq_of_lt (by omega)
    rw [hfinal]
    omega
  · conv_rhs => rw [← map_getD_range src]
    apply List.map_congr_left
    intro j hj
    rw [List.mem_range] at hj
    show (fifo_write q src).1.data ((q.tail + (fifo_count q + j)) % q.size)
        = src.getD j 0
    have hidx : (q.tail + (fifo_count q + j)) % q.size = (q.head + j) % q.size := by
      have m1 : q.tail + (fifo_count q + j)
          ≡ q.tail + (q.head + q.size - q.tail + j) [MOD q.size] := by
        apply Nat.ModEq.add_left
        apply Nat.ModEq.add_right
        rw [hcq]
        exact Nat.mod_modEq _ _
      have e1 : q.tail + (q.head + q.size - q.tail + j) = q.head + j + q.size := by
        omega
      calc (q.tail + (fifo_count q + j)) % q.size
          = (q.tail + (q.head + q.size - q.tail + j)) % q.size := m1
        _ = (q.head + j + q.size) % q.size := by rw [e1]
        _ = (q.head + j) % q.size := Nat.add_mod_right _ _
    rw [hidx]
    exact fifo_write_data_new inv hfit j hj

/-- A sequence of `fifo_write`s (each write keeps only the updated ring). -/
def fifo_write_seq (q : MFifo) (ws : List (List Nat)) : MFifo :=
  ws.foldl (fun r w => (fifo_write r w).1) q

/-- Every write of the sequence is performed with sufficient free space. -/
def fifo_seq_fits : MFifo → List (List Nat) → Bool
  | _, [] => true
  | q, w :: ws =>
    decide (w.length ≤ fifo_space q) && fifo_seq_fits (fifo_write q w).1 ws

theorem fifo_drain_write_seq {k : Nat} (ws : List (List Nat)) :
    ∀ q : MFifo, MFifoInv q k → fifo_seq_fits q ws = true →
      fifo_read_chunks (fifo_write_seq q ws) = fifo_read_chunks q ++ ws.flatten := by
  induction ws with
  | nil => intro q _ _; simp [fifo_write_seq]
  | cons w ws ih =>
    intro q inv hfits
    rw [fifo_seq_fits, Bool.and_eq_true, decide_eq_true_iff] at hfits
    have h1 := fifo_drain_write inv hfits.1
    have inv' := @fifo_write_inv q w k inv
    have h2 := ih (fifo_write q w).1 inv' hfits.2
    show fifo_read_chunks (fifo_write_seq (fifo_write q w).1 ws) = _
    rw [h2, h1, List.flatten_cons, List.append_assoc]

/-- C2: a ring write with insufficient free space returns zero bytes written
and leaves the ring untouched; otherwise the whole buffer is copied (in at
most two contiguous copies, as the two `memwrite`s in `fifo_write` show),
the head index advances by the length modulo the capacity, and for any
sequence of writes each performed with sufficient free space the chunked
read-drain of `modem_pipe_recv` returns exactly the written bytes in order,
regardless of wrap-around. -/
theorem C2_ring_write_correct (q : MFifo) (k : Nat) (inv : MFifoInv q k) :
    (∀ src : List Nat, fifo_space q < src.length → fifo_write q src = (q, 0)) ∧
    (∀ src : List Nat, src.length ≤ fifo_space q →
      (fifo_write q src).2 = src.length ∧
      (fifo_write q src).1.head = (q.head + src.length) % q.size ∧
      fifo_read_chunks (fifo_write q src).1 = fifo_read_chunks q ++ src) ∧
    (∀ ws : List (List Nat), fifo_seq_fits q ws = true →
      fifo_read_chunks (fifo_write_seq q ws) = fifo_read_chunks q ++ ws.flatten) := by
  refine ⟨fun src h => fifo_write_fail h, fun src h => ?_, fun ws h => ?_⟩
  · obtain ⟨h1, h2, -, -⟩ := fifo_write_shape inv h
    exact ⟨h1, h2, fifo_drain_write inv h⟩
  · exact fifo_drain_write_seq ws q inv h

/-- Witness for `C2_ring_write_correct` at a concrete ring of capacity 8 and
a two-write sequence that wraps nothing away. -/
theorem C2_ring_write_correct_witness :
    fifo_read_chunks (fifo_write_seq (MFifo.mk 0 0 8 (fun _ => 0) 0 0) [[1, 2, 3], [4, 5]]) =
      fifo_read_chunks (MFifo.mk 0 0 8 (fun _ => 0) 0 0) ++ [1, 2, 3, 4, 5] := by
  have h := (C2_ring_write_correct (MFifo.mk 0 0 8 (fun _ => 0) 0 0) 3
    ⟨by decide, by decide, by decide, by decide⟩).2.2
  exact h [[1, 2, 3], [4, 5]] (by decide)

/-! ## Semaphore/Mailbox arbiter and modem lifecycle
(`drivers/misc/samsung_modemctl/modem_ctl.c`)

The headers `modem_ctl.h` / `modem_ctl_p.h` are not under `src/`; the struct
fields and helper macros used by `modem_ctl.c` are therefore modelled from
the spec where noted.  Mailbox writes (`writel(..., OFF_MBOX_AP)`) are logged
in order; `wake_up(&mc->wq)` calls are counted. -/

/-- Modelled from the spec: the lifecycle state enum (`modem_ctl.h`, not
under `src/`) — Off, PoweredOn, BootingNormal, BootingRamdump, Dumping,
Running, Crashed. -/
inductive ModemStatus where
  | off
  | power_on
  | booting_normal
  | booting_ramdump
  | dumping
  | running
  | crashed
  deriving DecidableEq

/-- Modelled from the spec: mailbox flag bit `MB_VALID` (`modem_ctl_p.h`,
not under `src/`); the numeric value is conventional, the theorems depend
only on the bit structure. -/
def MB_VALID : Nat := 0x0080

/-- Modelled from the spec: mailbox flag bit `MB_COMMAND` (not under `src/`). -/
def MB_COMMAND : Nat := 0x0040

/-- Modelled from the spec: low-nibble mailbox command codes (`MBC_*`,
not under `src/`). -/
def MBC_INIT_END : Nat := 2

def MBC_REQ_SEM : Nat := 5

def MBC_RES_SEM : Nat := 6

def MBC_RESET : Nat := 7

def MBC_PHONE_START : Nat := 8

def MBC_ERR_DISPLAY : Nat := 9

def MBC_SUSPEND : Nat := 10

def MBC_RESUME : Nat := 11

/-- Modelled from the spec: boot-mode flag sent with `MBC_INIT_END`
(not under `src/`). -/
def CP_BOOT_AIRPLANE : Nat := 0x0200

/-- Modelled from the spec: AP OS flag sent with `MBC_INIT_END`
(not under `src/`). -/
def AP_OS_ANDROID : Nat := 0x0300

/-- Modelled from the spec: raw (non-`MB_VALID`) mailbox messages from the
bootloader/ramdump protocol (not under `src/`); distinct literals. -/
def MODEM_MSG_BINARY_DONE : Nat := 0x12341234

def MODEM_MSG_RAMDUMP_LARGE : Nat := 0x23452345

def MODEM_MSG_RAMDUMP_SMALL : Nat := 0x34563456

def MODEM_MSG_LOGDUMP_DONE : Nat := 0x10041004

def RAMDUMP_LARGE_SIZE : Nat := 0xE00000

def RAMDUMP_SMALL_SIZE : Nat := 0xCC000

/-- One `struct m_pipe` (tx/rx rings; the transmit mutex and callback are
not part of the sequential state). -/
structure MPipe where
  tx : MFifo
  rx : MFifo
  format : Nat

/-- The `struct modemctl` state touched by the arbiter, the lifecycle
machine and the mailbox IRQ handler.  `mmio_req_count` is an `int` in the
driver (its header is not under `src/`), modelled as a mathematical
integer.  `sem` is the hardware semaphore word at `OFF_SEM`; `mbox_ap`
logs every `writel` to `OFF_MBOX_AP` in order; `wakeups` counts
`wake_up(&mc->wq)`; `io_handled` counts `modem_handle_io` invocations
(whose pipe-drain behavior is verified separately on `MFifo`). -/
structure Modemctl where
  status : ModemStatus
  variant_ste : Bool
  mmio_req_count : Int
  mmio_owner : Nat
  mmio_signal_bits : Nat
  mmio_bp_request : Nat
  sem : Nat
  mbox_ap : List Nat
  wakeups : Nat
  logdump_data : Nat
  ramdump_size : Nat
  cmd_pipe : MPipe
  rfs_pipe : MPipe
  raw_pipe : MPipe

/-- `mmio_sem` from `modem_ctl.c`: `readl(mc->mmio + OFF_SEM) & 1`. -/
def mmio_sem (mc : Modemctl) : Nat := mc.sem &&& 1

/-- Modelled from the spec: `modem_running` (`modem_ctl_p.h`, not under
`src/`) — the modem lifecycle state is RUNNING. -/
def modem_running (mc : Modemctl) : Bool := mc.status = ModemStatus.running

/-- Modelled from the spec: `modem_offline` (`modem_ctl_p.h`, not under
`src/`) — the modem is in an offline/crashed state. -/
def modem_offline (mc : Modemctl) : Bool :=
  mc.status = ModemStatus.off ∨ mc.status = ModemStatus.crashed

/-- `modem_request_sem` from `modem_ctl.c`: write an ownership request to
the AP→BP mailbox. -/
def modem_request_sem (mc : Modemctl) : Modemctl :=
  { mc with mbox_ap := mc.mbox_ap ++ [MB_COMMAND ||| MB_VALID ||| MBC_REQ_SEM] }

/-- `modem_update_state` from `modem_io.c`: refresh every pipe's cached
space/count and wake blocked operations. -/
def modem_update_state (mc : Modemctl) : Modemctl :=
  { mc with
    cmd_pipe := { mc.cmd_pipe with
      tx := { mc.cmd_pipe.tx with avail := fifo_space mc.cmd_pipe.tx },
      rx := { mc.cmd_pipe.rx with avail := fifo_count mc.cmd_pipe.rx } },
    rfs_pipe := { mc.rfs_pipe with
      tx := { mc.rfs_pipe.tx with avail := fifo_space mc.rfs_pipe.tx },
      rx := { mc.rfs_pipe.rx with avail := fifo_count mc.rfs_pipe.rx } },
    raw_pipe := { mc.raw_pipe with
      tx := { mc.raw_pipe.tx with avail := fifo_space mc.raw_pipe.tx },
      rx := { mc.raw_pipe.rx with avail := fifo_count mc.raw_pipe.rx } },
    wakeups := mc.wakeups + 1 }

/-- `modem_request_mmio` from `modem_ctl.c`: bump the reference count and
return current ownership; on the first reference either claim an already
granted semaphore or (only when RUNNING) ask the peer for it. -/
def modem_request_mmio (mc : Modemctl) : Modemctl × Nat :=
  if mc.mmio_owner ≠ 0 then
    ({ mc with mmio_req_count := mc.mmio_req_count + 1 }, mc.mmio_owner)
  else if mmio_sem mc = 1 then
    (modem_update_state { mc with mmio_req_count := mc.mmio_req_count + 1,
                                  mmio_owner := 1, wakeups := mc.wakeups + 1 }, 1)
  else if modem_running mc then
    (modem_request_sem { mc with mmio_req_count := mc.mmio_req_count + 1 }, 0)
  else ({ mc with mmio_req_count := mc.mmio_req_count + 1 }, 0)

/-- `modem_release_mmio` from `modem_ctl.c`.  The C function first
decrements `mmio_req_count` and ORs `bits` into `mmio_signal_bits` and
then branches on the mutated fields; the mutation is inlined into the
conditions and records here. -/
def modem_release_mmio (mc : Modemctl) (bits : Nat) : Modemctl :=
  if mc.mmio_req_count - 1 = 0 ∧ modem_running mc = true then
    if mc.mmio_bp_request ≠ 0 then
      { mc with mmio_req_count := mc.mmio_req_count - 1,
                mmio_bp_request := 0, sem := 0,
                mbox_ap := mc.mbox_ap ++ [MB_COMMAND ||| MB_VALID ||| MBC_RES_SEM],
                mmio_owner := 0, mmio_signal_bits := 0 }
    else if mc.mmio_signal_bits ||| bits ≠ 0 then
      { mc with mmio_req_count := mc.mmio_req_count - 1, sem := 0,
                mbox_ap := mc.mbox_ap ++ [MB_VALID ||| (mc.mmio_signal_bits ||| bits)],
                mmio_owner := 0, mmio_signal_bits := 0 }
    else
      { mc with mmio_req_count := mc.mmio_req_count - 1,
                mmio_owner := 0, mmio_signal_bits := 0 }
  else
    { mc with mmio_req_count := mc.mmio_req_count - 1,
              mmio_signal_bits := mc.mmio_signal_bits ||| bits }

/-- `mmio_owner_p` from `modem_ctl.c`: the wait condition of
`modem_acquire_mmio`. -/
def mmio_owner_p (mc : Modemctl) : Bool := mc.mmio_owner ≠ 0 ∨ modem_offline mc

/-- How the interruptible 5-second wait inside `modem_acquire_mmio`
resolved: `timeout` (returned 0), `interrupted` (returned < 0), or woken
with the condition true in the (concurrently updated) state `mc`. -/
inductive MmioWait where
  | timeout
  | interrupted
  | woken (mc : Modemctl)

/-- The timeout `modem_acquire_mmio` passes to
`wait_event_interruptible_timeout`: `5 * HZ` jiffies, i.e. five seconds. -/
def modem_acquire_timeout (hz : Nat) : Nat := 5 * hz

/-- `modem_acquire_mmio` from `modem_ctl.c`.  `-19` is `-ENODEV`,
`-512` is `-ERESTARTSYS`. -/
def modem_acquire_mmio (mc : Modemctl) (w : MmioWait) : Modemctl × Int :=
  if (modem_request_mmio mc).2 = 0 then
    match w with
    | .timeout => (modem_release_mmio (modem_request_mmio mc).1 0, -19)
    | .interrupted => (modem_release_mmio (modem_request_mmio mc).1 0, -512)
    | .woken mc2 =>
      if ¬ modem_running mc2 then (modem_release_mmio mc2 0, -19)
      else (mc2, 0)
  else
    if ¬ modem_running (modem_request_mmio mc).1 then
      (modem_release_mmio (modem_request_mmio mc).1 0, -19)
    else ((modem_request_mmio mc).1, 0)

/-- The sanitizing loop of the `MBC_ERR_DISPLAY` case in
`modemctl_mbox_irq_handler` (`modem_ctl.c`), byte-exact:
`for (i = 0; i < SIZ; i++) if ((buf[i] < 0x20) || (buf[1] > 0x7e)) buf[i] = 0x20;`
— note the driver tests `buf[1]`, not `buf[i]`, in the second disjunct. -/
def errmsg_scan (buf : List Nat) : List Nat :=
  (List.range buf.length).foldl
    (fun b i => if b.getD i 0 < 0x20 ∨ 0x7e < b.getD 1 0 then b.set i 0x20 else b) buf

/-- The trailing-space trim of the `MBC_ERR_DISPLAY` case:
`i--; while ((i > 0) && (buf[i] == 0x20)) buf[i--] = 0;` — computes the
index of the last byte kept. -/
def errmsg_trim_to (b : List Nat) : Nat → Nat
  | 0 => 0
  | i + 1 => if b.getD (i + 1) 0 = 0x20 then errmsg_trim_to b i else i + 1

/-- The error message surfaced by the `MBC_ERR_DISPLAY` case: the scanned
region up to the NUL written by the trim loop. -/
def errmsg_surfaced (buf : List Nat) : List Nat :=
  if buf.length = 0 then []
  else (errmsg_scan buf).take (errmsg_trim_to (errmsg_scan buf) (buf.length - 1) + 1)

/-- `modemctl_handle_offline` from `modem_ctl.c`. -/
def modemctl_handle_offline (mc : Modemctl) (cmd : Nat) : Modemctl :=
  match mc.status with
  | ModemStatus.booting_normal =>
    if cmd = MODEM_MSG_BINARY_DONE then
      let mc1 := if mc.variant_ste then
          { mc with mbox_ap := mc.mbox_ap ++
            [MB_VALID ||| MB_COMMAND ||| MBC_INIT_END ||| CP_BOOT_AIRPLANE] }
        else mc
      { mc1 with status := ModemStatus.running, wakeups := mc1.wakeups + 1 }
    else mc
  | ModemStatus.booting_ramdump | ModemStatus.dumping =>
    if cmd = MODEM_MSG_RAMDUMP_LARGE then
      { mc with status := ModemStatus.dumping, ramdump_size := RAMDUMP_LARGE_SIZE,
                wakeups := mc.wakeups + 1 }
    else if cmd = MODEM_MSG_RAMDUMP_SMALL then
      { mc with status := ModemStatus.dumping, ramdump_size := RAMDUMP_SMALL_SIZE,
                wakeups := mc.wakeups + 1 }
    else mc
  | _ => mc

/-- The block at the end of `modemctl_mbox_irq_handler` (`modem_ctl.c`):
on any interrupt, if the hardware semaphore reads as ours, claim it when
threads are waiting, process I/O, and hand it straight back with the
pending signal bits when nobody is holding it.  (`modem_handle_io` drains
the rx FIFOs through `modem_pipe_recv`, whose chunking is verified on
`MFifo`; it does not touch the arbiter fields modelled here.)
`mbox_signal_back` is its final give-back-and-signal step. -/
def mbox_signal_back (m : Modemctl) : Modemctl :=
  if m.mmio_signal_bits ≠ 0 ∧ m.mmio_owner = 0 then
    { m with sem := 0,
             mbox_ap := m.mbox_ap ++ [MB_VALID ||| m.mmio_signal_bits],
             mmio_signal_bits := 0 }
  else m

def mbox_claim_owner (mU : Modemctl) : Modemctl :=
  if mU.mmio_req_count ≠ 0 then
    { mU with mmio_owner := 1, wakeups := mU.wakeups + 1 }
  else mU

def mbox_claim_block (mc : Modemctl) : Modemctl :=
  if mmio_sem mc = 1 then
    mbox_signal_back
      (if mc.mmio_owner = 0 then mbox_claim_owner (modem_update_state mc) else mc)
  else mc

/-- `modemctl_mbox_irq_handler` from `modem_ctl.c`, for one mailbox command
`cmd`; `err_region` carries the `SIZ_ERROR_MSG` bytes at `OFF_ERROR_MSG`.
Returns the new state and, for `MBC_ERR_DISPLAY`, the sanitized message
surfaced by the handler's log statement. -/
def modemctl_mbox_irq (mc : Modemctl) (cmd : Nat) (err_region : List Nat) :
    Modemctl × Option (List Nat) :=
  if mc.status ≠ ModemStatus.running then (modemctl_handle_offline mc cmd, none)
  else if cmd &&& MB_VALID = 0 then
    if cmd = MODEM_MSG_LOGDUMP_DONE then
      ({ mc with logdump_data := 1, wakeups := mc.wakeups + 1 }, none)
    else (mc, none)
  else if cmd &&& MB_COMMAND ≠ 0 then
    if cmd &&& 15 = MBC_REQ_SEM then
      if mmio_sem mc = 0 then
        -- peer asked for a semaphore it already owns: ack (falls through
        -- to the `MBC_RES_SEM` break)
        (mbox_claim_block { mc with
          mbox_ap := mc.mbox_ap ++ [MB_COMMAND ||| MB_VALID ||| MBC_RES_SEM] }, none)
      else if mc.mmio_req_count = 0 then
        -- no references: give the semaphore to the modem (goto done)
        (let mcU := modem_update_state mc
         { mcU with mmio_owner := 0, sem := 0,
                    mbox_ap := mcU.mbox_ap ++ [MB_COMMAND ||| MB_VALID ||| MBC_RES_SEM] },
         none)
      else
        -- busy: remember the modem wants it
        (mbox_claim_block { mc with mmio_bp_request := 1 }, none)
    else if cmd &&& 15 = MBC_RES_SEM then (mbox_claim_block mc, none)
    else if cmd &&& 15 = MBC_PHONE_START then
      (let mc1 := { mc with mbox_ap := mc.mbox_ap ++
          [MB_COMMAND ||| MB_VALID ||| MBC_INIT_END ||| CP_BOOT_AIRPLANE ||| AP_OS_ANDROID] }
       mbox_claim_block (if mc1.mmio_req_count ≠ 0 then modem_request_sem mc1 else mc1),
       none)
    else if cmd &&& 15 = MBC_RESET then
      (mbox_claim_block { mc with status := ModemStatus.crashed,
                                  wakeups := mc.wakeups + 1 }, none)
    else if cmd &&& 15 = MBC_ERR_DISPLAY then
      (mbox_claim_block { mc with status := ModemStatus.crashed,
                                  wakeups := mc.wakeups + 1 },
       some (errmsg_surfaced err_region))
    else (mbox_claim_block mc, none)
  else if mc.variant_ste ∧ mmio_sem mc = 0 then (modem_request_sem mc, none)
  else (mbox_claim_block mc, none)

theorem modem_release_count (mc : Modemctl) (b : Nat) :
    (modem_release_mmio mc b).mmio_req_count = mc.mmio_req_count - 1 := by
  unfold modem_release_mmio
  repeat' split
  all_goals rfl

theorem modem_request_count (mc : Modemctl) :
    (modem_request_mmio mc).1.mmio_req_count = mc.mmio_req_count + 1 := by
  unfold modem_request_mmio modem_update_state modem_request_sem
  repeat' split
  all_goals rfl

/-- C1: `release_access` always decrements the reference count and ORs the
signal bits into the accumulator; exactly when the resulting count is zero
and the modem is RUNNING a handoff decision is taken — peer-requested
ownership wins (semaphore written back, release acknowledgment sent, no
signal bits sent), else non-empty accumulated bits are sent with the
semaphore handed back, else nothing is written to the semaphore or the
mailbox; ownership flag and accumulator are cleared in all three branches.
The final conjunct is Scenario 4: an ownership request arriving while the
reference count is positive marks `mmio_bp_request`, and the release that
drops the count to zero sends the acknowledgment, not signal bits. -/
theorem C1_release_access (mc : Modemctl) (bits : Nat) :
    ((modem_release_mmio mc bits).mmio_req_count = mc.mmio_req_count - 1) ∧
    (¬ (mc.mmio_req_count - 1 = 0 ∧ modem_running mc = true) →
      modem_release_mmio mc bits =
        { mc with mmio_req_count := mc.mmio_req_count - 1,
                  mmio_signal_bits := mc.mmio_signal_bits ||| bits }) ∧
    (mc.mmio_req_count - 1 = 0 → modem_running mc = true → mc.mmio_bp_request ≠ 0 →
      (modem_release_mmio mc bits).mbox_ap =
          mc.mbox_ap ++ [MB_COMMAND ||| MB_VALID ||| MBC_RES_SEM] ∧
      (modem_release_mmio mc bits).sem = 0 ∧
      (modem_release_mmio mc bits).mmio_bp_request = 0 ∧
      (modem_release_mmio mc bits).mmio_owner = 0 ∧
      (modem_release_mmio mc bits).mmio_signal_bits = 0) ∧
    (mc.mmio_req_count - 1 = 0 → modem_running mc = true → mc.mmio_bp_request = 0 →
      mc.mmio_signal_bits ||| bits ≠ 0 →
      (modem_release_mmio mc bits).mbox_ap =
          mc.mbox_ap ++ [MB_VALID ||| (mc.mmio_signal_bits ||| bits)] ∧
      (modem_release_mmio mc bits).sem = 0 ∧
      (modem_release_mmio mc bits).mmio_owner = 0 ∧
      (modem_release_mmio mc bits).mmio_signal_bits = 0) ∧
    (mc.mmio_req_count - 1 = 0 → modem_running mc = true → mc.mmio_bp_request = 0 →
      mc.mmio_signal_bits ||| bits = 0 →
      (modem_release_mmio mc bits).mbox_ap = mc.mbox_ap ∧
      (modem_release_mmio mc bits).sem = mc.sem ∧
      (modem_release_mmio mc bits).mmio_owner = 0 ∧
      (modem_release_mmio mc bits).mmio_signal_bits = 0) ∧
    (∀ m : Modemctl, m.status = ModemStatus.running → m.mmio_req_count = 1 →
      m.mmio_owner = 1 → mmio_sem m = 1 → m.mmio_signal_bits = 0 →
      (modemctl_mbox_irq m (MB_COMMAND ||| MB_VALID ||| MBC_REQ_SEM) []).1 =
        { m with mmio_bp_request := 1 } ∧
      (modem_release_mmio { m with mmio_bp_request := 1 } 0).mbox_ap =
        m.mbox_ap ++ [MB_COMMAND ||| MB_VALID ||| MBC_RES_SEM] ∧
      (modem_release_mmio { m with mmio_bp_request := 1 } 0).sem = 0) := by
  refine ⟨modem_release_count mc bits, ?_, ?_, ?_, ?_, ?_⟩
  · intro hno
    unfold modem_release_mmio
    rw [if_neg hno]
  · intro h1 h2 h3
    unfold modem_release_mmio
    rw [if_pos ⟨h1, h2⟩, if_pos h3]
    exact ⟨rfl, rfl, rfl, rfl, rfl⟩
  · intro h1 h2 h3 h4
    unfold modem_release_mmio
    rw [if_pos ⟨h1, h2⟩, if_neg (by simp [h3]), if_pos h4]
    exact ⟨rfl, rfl, rfl, rfl⟩
  · intro h1 h2 h3 h4
    unfold modem_release_mmio
    rw [if_pos ⟨h1, h2⟩, if_neg (by simp [h3]), if_neg (by simp [h4])]
    exact ⟨rfl, rfl, rfl, rfl⟩
  · intro m hst hcnt howner hsem hsig
    constructor
    · unfold modemctl_mbox_irq
      rw [if_neg (by simp [hst]), if_neg (by decide), if_pos (by decide),
          if_pos (by decide), if_neg (by rw [hsem]; decide),
          if_neg (by rw [hcnt]; decide)]
      unfold mbox_claim_block
      have hsem2 : mmio_sem { m with mmio_bp_request := 1 } = 1 := hsem
      rw [if_pos hsem2, if_neg (by simp [howner])]
      unfold mbox_signal_back
      rw [if_neg (by simp [howner])]
    · unfold modem_release_mmio
      rw [if_pos ⟨by simp [hcnt], by simp [modem_running, hst]⟩,
          if_pos (by exact Nat.one_ne_zero)]
      exact ⟨rfl, rfl⟩

/-- C6: every `acquire_access` that did not find ownership already held
resolves its interruptible wait (whose timeout argument is `5 * HZ`
jiffies, i.e. five seconds) in one of three ways, and in every failure
case the reference count the call incremented is released before the
error returns: timeout fails with the driver's timeout error (`-ENODEV`,
logged as TIMEOUT), interruption fails with `-ERESTARTSYS`, and a modem
observed offline/crashed at wake fails with `-ENODEV`; the last two
conjuncts cover the already-owner path. -/
theorem C6_acquire_releases_reference (mc : Modemctl) (w : MmioWait) :
    ((modem_request_mmio mc).2 = 0 → w = MmioWait.timeout →
      (modem_acquire_mmio mc w).2 = -19 ∧
      (modem_acquire_mmio mc w).1.mmio_req_count = mc.mmio_req_count) ∧
    ((modem_request_mmio mc).2 = 0 → w = MmioWait.interrupted →
      (modem_acquire_mmio mc w).2 = -512 ∧
      (modem_acquire_mmio mc w).1.mmio_req_count = mc.mmio_req_count) ∧
    (∀ mc2, (modem_request_mmio mc).2 = 0 → w = MmioWait.woken mc2 →
      modem_running mc2 = false →
      (modem_acquire_mmio mc w).2 = -19 ∧
      (modem_acquire_mmio mc w).1.mmio_req_count = mc2.mmio_req_count - 1) ∧
    (∀ mc2, (modem_request_mmio mc).2 = 0 → w = MmioWait.woken mc2 →
      modem_running mc2 = true →
      modem_acquire_mmio mc w = (mc2, 0)) ∧
    ((modem_request_mmio mc).2 ≠ 0 →
      modem_running (modem_request_mmio mc).1 = false →
      (modem_acquire_mmio mc w).2 = -19 ∧
      (modem_acquire_mmio mc w).1.mmio_req_count = mc.mmio_req_count) ∧
    ((modem_request_mmio mc).2 ≠ 0 →
      modem_running (modem_request_mmio mc).1 = true →
      modem_acquire_mmio mc w = ((modem_request_mmio mc).1, 0)) ∧
    (∀ hz : Nat, modem_acquire_timeout hz = 5 * hz) := by
  refine ⟨?_, ?_, ?_, ?_, ?_, ?_, fun _ => rfl⟩
  · intro h1 h2
    subst h2
    unfold modem_acquire_mmio
    rw [if_pos h1]
    refine ⟨rfl, ?_⟩
    rw [modem_release_count, modem_request_count]
    omega
  · intro h1 h2
    subst h2
    unfold modem_acquire_mmio
    rw [if_pos h1]
    refine ⟨rfl, ?_⟩
    rw [modem_release_count, modem_request_count]
    omega
  · intro mc2 h1 h2 h3
    subst h2
    unfold modem_acquire_mmio
    rw [if_pos h1]
    show (if ¬ modem_running mc2 = true then (modem_release_mmio mc2 0, -19)
        else (mc2, 0)).2 = -19 ∧
      (if ¬ modem_running mc2 = true then (modem_release_mmio mc2 0, -19)
        else (mc2, 0)).1.mmio_req_count = mc2.mmio_req_count - 1
    rw [if_pos (by simp [h3])]
    exact ⟨rfl, modem_release_count mc2 0⟩
  · intro mc2 h1 h2 h3
    subst h2
    unfold modem_acquire_mmio
    rw [if_pos h1]
    show (if ¬ modem_running mc2 = true then (modem_release_mmio mc2 0, -19)
      else (mc2, 0)) = (mc2, 0)
    rw [if_neg (by simp [h3])]
  · intro h1 h2
    unfold modem_acquire_mmio
    rw [if_neg h1, if_pos (by simp [h2])]
    refine ⟨rfl, ?_⟩
    rw [modem_release_count, modem_request_count]
    omega
  · intro h1 h2
    unfold modem_acquire_mmio
    rw [if_neg h1, if_neg (by simp [h2])]

/-- A concrete FIFO for witnesses: capacity 8, empty, zeroed region. -/
def testFifo : MFifo := ⟨0, 0, 8, fun _ => 0, 0, 0⟩

def testPipe : MPipe := ⟨testFifo, testFifo, 0⟩

/-- A concrete RUNNING `modemctl` holding one reference and the semaphore,
with the peer's ownership request recorded. -/
def testMC : Modemctl :=
  ⟨ModemStatus.running, false, 1, 1, 0, 1, 1, [], 0, 0, 0, testPipe, testPipe, testPipe⟩

/-- A concrete RUNNING `modemctl` with no references and nothing held. -/
def testMC2 : Modemctl :=
  ⟨ModemStatus.running, false, 0, 0, 0, 0, 0, [], 0, 0, 0, testPipe, testPipe, testPipe⟩

/-- Witness for `C1_release_access`: the peer-requested branch at a
concrete state. -/
theorem C1_release_access_witness :
    (modem_release_mmio testMC 0).mbox_ap =
        testMC.mbox_ap ++ [MB_COMMAND ||| MB_VALID ||| MBC_RES_SEM] ∧
    (modem_release_mmio testMC 0).sem = 0 ∧
    (modem_release_mmio testMC 0).mmio_bp_request = 0 ∧
    (modem_release_mmio testMC 0).mmio_owner = 0 ∧
    (modem_release_mmio testMC 0).mmio_signal_bits = 0 :=
  (C1_release_access testMC 0).2.2.1 (by decide) (by decide) (by decide)

/-- Witness for `C6_acquire_releases_reference`: a timeout at a concrete
non-owning state releases the reference and fails. -/
theorem C6_acquire_releases_reference_witness :
    (modem_acquire_mmio testMC2 MmioWait.timeout).2 = -19 ∧
    (modem_acquire_mmio testMC2 MmioWait.timeout).1.mmio_req_count =
      testMC2.mmio_req_count :=
  (C6_acquire_releases_reference testMC2 MmioWait.timeout).1 (by decide) rfl

/-- C9 counterexample: `release_access` with the reference count already
zero is not a no-op — at a concrete state it drives the count negative and
ORs the bits into the pending-signal accumulator. -/
theorem C9_release_at_zero_counterexample :
    (modem_release_mmio testMC2 1).mmio_req_count < 0 ∧
    (modem_release_mmio testMC2 1).mmio_signal_bits ≠ testMC2.mmio_signal_bits := by
  decide

/-- C9 (amended): purging an empty ring keeps it empty, leaves the
readable contents (none) unchanged, and every subsequent write drains
identically to the un-purged ring; `release_access` at reference count
zero does not panic and takes no handoff action, but it is not a no-op:
it decrements the count to `-1` and ORs the bits into the accumulator,
leaving ownership, peer-request flag, semaphore and mailbox untouched. -/
theorem C9_idempotence_amended (q : MFifo) (k : Nat) (inv : MFifoInv q k)
    (hempty : fifo_count q = 0) (mc : Modemctl) (hc : mc.mmio_req_count = 0)
    (bits : Nat) :
    fifo_count (fifo_purge q) = 0 ∧
    fifo_read_chunks (fifo_purge q) = fifo_read_chunks q ∧
    (∀ src : List Nat,
      fifo_space (fifo_purge q) = fifo_space q ∧
      fifo_read_chunks (fifo_write (fifo_purge q) src).1 =
        fifo_read_chunks (fifo_write q src).1) ∧
    (modem_release_mmio mc bits).mmio_req_count = -1 ∧
    (modem_release_mmio mc bits).mmio_signal_bits = mc.mmio_signal_bits ||| bits ∧
    (modem_release_mmio mc bits).mmio_owner = mc.mmio_owner ∧
    (modem_release_mmio mc bits).mmio_bp_request = mc.mmio_bp_request ∧
    (modem_release_mmio mc bits).sem = mc.sem ∧
    (modem_release_mmio mc bits).mbox_ap = mc.mbox_ap := by
  have hpos : 0 < q.size := by rw [inv.hsize]; exact pow_pos_nat k
  have invP : MFifoInv (fifo_purge q) k := ⟨hpos, hpos, inv.hsize, inv.hk32⟩
  have hcntP : fifo_count (fifo_purge q) = 0 := by
    show circ_cnt 0 0 q.size = 0
    rw [circ_cnt_eq inv.hsize inv.hk32 (Nat.zero_le _)]
    simp
  have hchP : fifo_read_chunks (fifo_purge q) = [] := by
    rw [fifo_read_chunks_eq invP, hcntP]
    rfl
  have hchQ : fifo_read_chunks q = [] := by
    rw [fifo_read_chunks_eq inv, hempty]
    rfl
  have hspP : fifo_space (fifo_purge q) = q.size - 1 := by
    show circ_space 0 0 q.size = q.size - 1
    rw [circ_space_eq inv.hsize inv.hk32 hpos]
    have e : 0 + q.size - 0 - 1 = q.size - 1 := by omega
    rw [e]
    apply Nat.mod_eq_of_lt
    omega
  have hspQ : fifo_space q = q.size - 1 := by
    have := fifo_space_bound inv
    omega
  have hnotno : ¬ (mc.mmio_req_count - 1 = 0 ∧ modem_running mc = true) := by
    rintro ⟨h1, -⟩
    omega
  refine ⟨hcntP, by rw [hchP, hchQ], fun src => ⟨by rw [hspP, hspQ], ?_⟩,
    ?_, ?_, ?_, ?_, ?_, ?_⟩
  · rcases le_or_lt src.length (q.size - 1) with hfit | hbig
    · have hf1 : src.length ≤ fifo_space (fifo_purge q) := by omega
      have hf2 : src.length ≤ fifo_space q := by omega
      rw [fifo_drain_write invP hf1, fifo_drain_write inv hf2, hchP, hchQ]
    · have hb1 : fifo_space (fifo_purge q) < src.length := by omega
      have hb2 : fifo_space q < src.length := by omega
      rw [fifo_write_fail hb1, fifo_write_fail hb2]
      exact hchP.trans hchQ.symm
  all_goals unfold modem_release_mmio
  all_goals rw [if_neg hnotno]
  show mc.mmio_req_count - 1 = -1
  omega

/-- Witness for `C9_idempotence_amended` at the concrete empty FIFO and a
concrete zero-reference state. -/
theorem C9_idempotence_amended_witness :
    fifo_count (fifo_purge testFifo) = 0 ∧
    fifo_read_chunks (fifo_purge testFifo) = fifo_read_chunks testFifo ∧
    (∀ src : List Nat,
      fifo_space (fifo_purge testFifo) = fifo_space testFifo ∧
      fifo_read_chunks (fifo_write (fifo_purge testFifo) src).1 =
        fifo_read_chunks (fifo_write testFifo src).1) ∧
    (modem_release_mmio testMC2 1).mmio_req_count = -1 ∧
    (modem_release_mmio testMC2 1).mmio_signal_bits = testMC2.mmio_signal_bits ||| 1 ∧
    (modem_release_mmio testMC2 1).mmio_owner = testMC2.mmio_owner ∧
    (modem_release_mmio testMC2 1).mmio_bp_request = testMC2.mmio_bp_request ∧
    (modem_release_mmio testMC2 1).sem = testMC2.sem ∧
    (modem_release_mmio testMC2 1).mbox_ap = testMC2.mbox_ap :=
  C9_idempotence_amended testFifo 3 ⟨by decide, by decide, by decide, by decide⟩
    (by decide) testMC2 (by decide) 1

/-- C4: processing an error-display mailbox command transitions the
lifecycle state to Crashed and surfaces the scanned message region — but,
against the claim, the scan tests `buf[1]` instead of `buf[i]`, so a
non-printable byte (here `0x80` at index 2) survives sanitization whenever
the byte at index 1 is printable. -/
theorem C4_err_display_divergence :
    (modemctl_mbox_irq testMC (MB_COMMAND ||| MB_VALID ||| MBC_ERR_DISPLAY)
        [0x41, 0x42, 0x80, 0x43]).1.status = ModemStatus.crashed ∧
    (modemctl_mbox_irq testMC (MB_COMMAND ||| MB_VALID ||| MBC_ERR_DISPLAY)
        [0x41, 0x42, 0x80, 0x43]).2 =
      some [0x41, 0x42, 0x80, 0x43] ∧
    ¬ (∀ b ∈ errmsg_surfaced [0x41, 0x42, 0x80, 0x43], b ≤ 0x7e) := by
  decide

/-! ## SIPC wire formats (`include/dt-bindings/net/samsung_ipc.h`,
`include/uapi/linux/samsung_ipc.h`, `drivers/net/sipc/`) -/

def SAMSUNG_IPC_FORMAT_FMT : Nat := 0

def SAMSUNG_IPC_FORMAT_RAW : Nat := 1

def SAMSUNG_IPC_FORMAT_RFS : Nat := 2

def SAMSUNG_IPC_FORMAT_MULTI_RAW : Nat := 3

def SAMSUNG_IPC_FORMAT_CMD : Nat := 4

def SAMSUNG_IPC_FORMAT_RAMDUMP : Nat := 5

def SAMSUNG_IPC_FORMAT_MAX : Nat := 6

def HDLC_START : Nat := 0x7f

def HDLC_END : Nat := 0x7e

/-- `MAX_RX_SIZE` from `drivers/net/sipc/sipc.h`. -/
def MAX_RX_SIZE : Nat := 4096 - 512

/-- `MAX_MULTI_RX_SIZE` from `drivers/net/sipc/sipc.h`. -/
def MAX_MULTI_RX_SIZE : Nat := 16 * 1024

/-- Round `n` up to a multiple of the alignment `a` (C struct layout). -/
def alignUp (n a : Nat) : Nat := (n + a - 1) / a * a

/-- The C (ARM EABI) layout of a struct given its scalar fields as
`(size, alignment)` pairs: each field is placed at its alignment (or
immediately, when the struct is `__packed`), and the struct size is
rounded up to the largest field alignment (or not, when `__packed`).
Returns the field offsets and `sizeof`. -/
def structLayout (packed : Bool) (fields : List (Nat × Nat)) : List Nat × Nat :=
  let step := fields.foldl
    (fun (acc : List Nat × Nat × Nat) f =>
      let off := if packed then acc.2.1 else alignUp acc.2.1 f.2
      (acc.1 ++ [off], off + f.1, max acc.2.2 f.2))
    ([], 0, 1)
  (step.1, if packed then step.2.1 else alignUp step.2.1 step.2.2)

/-- `struct fmt_header { u16 len; u8 control; } __packed`
(`include/uapi/linux/samsung_ipc.h`). -/
def fmt_header_layout : List Nat × Nat := structLayout true [(2, 2), (1, 1)]

/-- `struct raw_header { u32 len; u8 channel; u8 control; } __packed`. -/
def raw_header_layout : List Nat × Nat := structLayout true [(4, 4), (1, 1), (1, 1)]

/-- `struct rfs_header { u32 len; u8 cmd; u8 id; }` — NOT `__packed` in the
source, unlike its two siblings. -/
def rfs_header_layout : List Nat × Nat := structLayout false [(4, 4), (1, 1), (1, 1)]

def sizeof_fmt_header : Nat := fmt_header_layout.2

def sizeof_raw_header : Nat := raw_header_layout.2

def sizeof_rfs_header : Nat := rfs_header_layout.2

/-- `sipc_get_header_size` from `drivers/net/sipc/core.c`. -/
def sipc_get_header_size (format : Nat) : Nat :=
  if format = SAMSUNG_IPC_FORMAT_FMT then sizeof_fmt_header
  else if format = SAMSUNG_IPC_FORMAT_RAW ∨ format = SAMSUNG_IPC_FORMAT_MULTI_RAW then
    sizeof_raw_header
  else if format = SAMSUNG_IPC_FORMAT_RFS then sizeof_rfs_header
  else 0

/-- C8: the FMT header is byte-exact (offsets 0 and 2, three bytes) and the
RAW header is byte-exact (offsets 0, 4, 5, six bytes), but `rfs_header` is
not `__packed`: although no padding sits between its fields (offsets 0, 4,
5), its `sizeof` — which `sipc_get_header_size` returns and the codec uses
as the on-the-wire header length — is 8, not the claimed 6. -/
theorem C8_rfs_header_not_packed :
    fmt_header_layout = ([0, 2], 3) ∧
    raw_header_layout = ([0, 4, 5], 6) ∧
    rfs_header_layout = ([0, 4, 5], 8) ∧
    sipc_get_header_size SAMSUNG_IPC_FORMAT_FMT = 3 ∧
    sipc_get_header_size SAMSUNG_IPC_FORMAT_RAW = 6 ∧
    sipc_get_header_size SAMSUNG_IPC_FORMAT_MULTI_RAW = 6 ∧
    sipc_get_header_size SAMSUNG_IPC_FORMAT_RFS = 8 ∧
    sizeof_rfs_header ≠ 6 := by
  decide

/-! ## Byte-stream device write path (`drivers/net/sipc/miscdev.c`) -/

/-- Little-endian bytes of a `u16`. -/
def u16le (n : Nat) : List Nat := [n % 256, n / 256 % 256]

/-- Little-endian bytes of a `u32`. -/
def u32le (n : Nat) : List Nat :=
  [n % 256, n / 256 % 256, n / 65536 % 256, n / 16777216 % 256]

/-- `sipc_get_header` from `miscdev.c`, serialized to the bytes the driver
`memcpy`s out of the `union sipc_header` (little-endian scalars at the
struct offsets).  Returns the header bytes and the returned size.  The RFS
branch is unreachable from `sipc_misc_write` (which skips the header for
RFS); the driver leaves `rfs.cmd` and the tail padding uninitialized there,
modelled as zero bytes. -/
def sipc_get_header (format channel len : Nat) : List Nat × Nat :=
  if format = SAMSUNG_IPC_FORMAT_FMT then
    (u16le (len + sizeof_fmt_header) ++ [0], sizeof_fmt_header)
  else if format = SAMSUNG_IPC_FORMAT_RAW ∨ format = SAMSUNG_IPC_FORMAT_MULTI_RAW then
    (u32le (len + sizeof_raw_header) ++ [channel &&& 0x1f, 0], sizeof_raw_header)
  else if format = SAMSUNG_IPC_FORMAT_RFS then
    (u32le (len + sizeof_rfs_header) ++ [0, channel % 256, 0, 0], sizeof_rfs_header)
  else ([], 0)

/-- Which per-format transmit queue `sipc_misc_write` enqueues on. -/
inductive TxQueue where
  | fmt
  | rfs
  | raw
  | dropped
  deriving DecidableEq

/-- The `skb` allocation size computed by `sipc_misc_write`:
`sizeof(HDLC_START) + sipc_get_header_size(format) + count + sizeof(HDLC_END)`. -/
def sipc_misc_write_alloc (format count : Nat) : Nat :=
  1 + sipc_get_header_size format + count + 1

/-- `sipc_misc_write` from `miscdev.c`: the bytes of the skb it builds and
enqueues, the queue it picks, and the returned byte count.  Note the code
puts the start byte and (except for RFS/RAMDUMP) the header, then the
payload — and nothing else: no `HDLC_END` is ever appended, although
`frame_len` reserves room for it. -/
def sipc_misc_write (format channel : Nat) (payload : List Nat) :
    List Nat × TxQueue × Nat :=
  ((if format ≠ SAMSUNG_IPC_FORMAT_RAMDUMP then
      [HDLC_START] ++
      (if format ≠ SAMSUNG_IPC_FORMAT_RFS then
        (sipc_get_header format channel payload.length).1
      else []) ++
      payload
    else payload),
   (if format = SAMSUNG_IPC_FORMAT_FMT then TxQueue.fmt
    else if format = SAMSUNG_IPC_FORMAT_RFS then TxQueue.rfs
    else if format = SAMSUNG_IPC_FORMAT_RAW then TxQueue.raw
    else TxQueue.dropped),
   payload.length)

/-- C3 counterexample: a 2-byte FMT write enqueues
`7f 05 00 00 61 62` — the header's length field is header+payload as
claimed, but the frame does not end in `HDLC_END(0x7e)`. -/
theorem C3_no_end_byte_counterexample :
    (sipc_misc_write SAMSUNG_IPC_FORMAT_FMT 1 [0x61, 0x62]).1 =
      [0x7f, 5, 0, 0, 0x61, 0x62] ∧
    ((sipc_misc_write SAMSUNG_IPC_FORMAT_FMT 1 [0x61, 0x62]).1).getLast? ≠
      some HDLC_END := by
  decide

/-- C3 (amended): for FMT and RAW the enqueued message is
`START_BYTE | header | payload` with the header's length field equal to
header size plus payload size (channel id masked to 5 bits for RAW); for
RFS only `START_BYTE | payload` is enqueued (the RFS header is expected
from userspace); in no case is `END_BYTE` appended, even though the skb
allocation reserves a byte for it; the call returns the payload length and
enqueues on the format's own transmit queue. -/
theorem C3_misc_write_framing (channel : Nat) (payload : List Nat) :
    (sipc_misc_write SAMSUNG_IPC_FORMAT_FMT channel payload).1 =
      HDLC_START :: (u16le (payload.length + 3) ++ [0]) ++ payload ∧
    (sipc_misc_write SAMSUNG_IPC_FORMAT_RAW channel payload).1 =
      HDLC_START :: (u32le (payload.length + 6) ++ [channel &&& 0x1f, 0]) ++ payload ∧
    (sipc_misc_write SAMSUNG_IPC_FORMAT_RFS channel payload).1 =
      HDLC_START :: payload ∧
    (sipc_misc_write SAMSUNG_IPC_FORMAT_FMT channel payload).2 =
      (TxQueue.fmt, payload.length) ∧
    (sipc_misc_write SAMSUNG_IPC_FORMAT_RAW channel payload).2 =
      (TxQueue.raw, payload.length) ∧
    (sipc_misc_write SAMSUNG_IPC_FORMAT_RFS channel payload).2 =
      (TxQueue.rfs, payload.length) ∧
    (sipc_misc_write SAMSUNG_IPC_FORMAT_FMT channel payload).1.length + 1 =
      sipc_misc_write_alloc SAMSUNG_IPC_FORMAT_FMT payload.length ∧
    (sipc_misc_write SAMSUNG_IPC_FORMAT_RAW channel payload).1.length + 1 =
      sipc_misc_write_alloc SAMSUNG_IPC_FORMAT_RAW payload.length := by
  refine ⟨rfl, rfl, rfl, rfl, rfl, rfl, ?_, ?_⟩
  · simp [sipc_misc_write, sipc_get_header, sipc_misc_write_alloc,
      sipc_get_header_size, u16le, sizeof_fmt_header, fmt_header_layout,
      structLayout, alignUp, SAMSUNG_IPC_FORMAT_FMT, SAMSUNG_IPC_FORMAT_RFS,
      SAMSUNG_IPC_FORMAT_RAMDUMP, HDLC_START]
    omega
  · simp [sipc_misc_write, sipc_get_header, sipc_misc_write_alloc,
      sipc_get_header_size, u32le, sizeof_raw_header, raw_header_layout,
      structLayout, alignUp, SAMSUNG_IPC_FORMAT_FMT, SAMSUNG_IPC_FORMAT_RAW,
      SAMSUNG_IPC_FORMAT_MULTI_RAW, SAMSUNG_IPC_FORMAT_RFS,
      SAMSUNG_IPC_FORMAT_RAMDUMP, HDLC_START]
    omega

/-! ## SIPC core: channels, flow control, transmit gate
(`drivers/net/sipc/core.c`) -/

def SAMSUNG_IPC_TYPE_MISC : Nat := 0

def SAMSUNG_IPC_TYPE_NETDEV : Nat := 1

def SAMSUNG_IPC_TYPE_DUMMY : Nat := 2

def LINK_CMD_STOP_RAW : Nat := 0x00ca

def LINK_CMD_START_RAW : Nat := 0x00cb

/-- An sk_buff: allocated capacity plus the bytes put so far
(`skb_tailroom = cap - data.length`). -/
structure SipcSkb where
  cap : Nat
  data : List Nat
  deriving DecidableEq

/-- One `struct sipc_io_channel`: configuration, inbound queue, wake count,
the per-id FMT reassembly buffers (`fmt_skb[128]`) and the per-channel
HDLC reassembly state (`pending_rx_header` as its accumulated union bytes,
`len`, `frag_len` and `start` fields, plus `pending_rx_skb`). -/
structure SipcIoChannel where
  format : Nat
  chtype : Nat
  channel : Nat
  has_netdev : Bool
  netdev_stopped : Bool
  rx_queue : List (List Nat)
  wakeups : Nat
  fmt_skb : Nat → Option SipcSkb
  hdr_bytes : List Nat
  hdr_len : Nat
  frag_len : Nat
  hdr_start : Nat
  pending_rx_skb : Option SipcSkb

instance : Inhabited SipcIoChannel :=
  ⟨⟨0, 0, 0, false, false, [], 0, fun _ => none, [], 0, 0, 0, none⟩⟩

/-- `struct samsung_ipc`: the channel table, protocol version, and the RAW
flow-control gate — `raw_tx_suspended` plus the `raw_tx_resumed`
completion, modelled by whether it is completed (`complete_all` leaves it
open until the next `reinit_completion`). -/
structure SamsungIpc where
  channels : List SipcIoChannel
  version : Nat
  raw_tx_suspended : Bool
  raw_tx_resumed_done : Bool

/-- `find_io_channel` from `core.c`: index of the first channel whose
format matches and, unless the requested channel is `-1`, whose channel id
matches. -/
def find_io_channel (chans : List SipcIoChannel) (channel : Int) (format : Nat) :
    Option Nat :=
  (List.range chans.length).find? (fun i =>
    decide ((chans.getD i default).format = format ∧
      (channel = -1 ∨ ((chans.getD i default).channel : Int) = channel)))

/-- One command of `sipc_rx_cmd` from `core.c`: STOP-RAW stops every
netdev queue, re-arms (closes) the completion and marks RAW tx suspended;
START-RAW starts the queues, clears the flag and completes the gate. -/
def sipc_rx_one_cmd (s : SamsungIpc) (cmd : Nat) : SamsungIpc :=
  if cmd = LINK_CMD_STOP_RAW then
    { s with
      channels := s.channels.map (fun c =>
        if c.has_netdev ∧ c.chtype = SAMSUNG_IPC_TYPE_NETDEV then
          { c with netdev_stopped := true }
        else c),
      raw_tx_resumed_done := false,
      raw_tx_suspended := true }
  else if cmd = LINK_CMD_START_RAW then
    { s with
      channels := s.channels.map (fun c =>
        if c.has_netdev ∧ c.chtype = SAMSUNG_IPC_TYPE_NETDEV then
          { c with netdev_stopped := false }
        else c),
      raw_tx_suspended := false,
      raw_tx_resumed_done := true }
  else s

/-- `sipc_rx_cmd` from `core.c`: the buffer is interpreted as a sequence of
`unsigned short` commands, processed in order. -/
def sipc_rx_cmd (s : SamsungIpc) (cmds : List Nat) : SamsungIpc :=
  cmds.foldl sipc_rx_one_cmd s

/-- How far one `sipc_do_tx` call gets. -/
inductive TxStep where
  | err_enodev
  | err_ebusy
  | gate_wait_blocked
  | transmit
  deriving DecidableEq

/-- `sipc_do_tx` from `core.c`: no link registered fails with `-ENODEV`;
for RAW/MULTI_RAW, a suspended gate in interrupt context fails with
`-EBUSY`, and otherwise the code calls `wait_for_completion` on
`raw_tx_resumed` UNCONDITIONALLY (the call sits outside the
`raw_tx_suspended` test) — an uninterruptible sleep whenever the
completion is not in its completed state; only then is the link's
`transmit` reached. -/
def sipc_do_tx (s : SamsungIpc) (format : Nat) (link_present : Bool)
    (inIrq : Bool) : TxStep :=
  if SAMSUNG_IPC_FORMAT_MAX ≤ format ∨ ¬ link_present then TxStep.err_enodev
  else if format = SAMSUNG_IPC_FORMAT_RAW ∨ format = SAMSUNG_IPC_FORMAT_MULTI_RAW then
    if s.raw_tx_suspended ∧ inIrq then TxStep.err_ebusy
    else if s.raw_tx_resumed_done then TxStep.transmit
    else TxStep.gate_wait_blocked
  else TxStep.transmit

/-- A `samsung_ipc` as `sipc_probe` leaves it: `init_completion` leaves the
gate not completed, `raw_tx_suspended` false. -/
def freshSipc : SamsungIpc := ⟨[], 40, false, false⟩

/-- C5 counterexample: in the freshly probed state — RAW tx not stopped —
a RAW transmission still blocks on the flow-control gate, because
`sipc_do_tx` waits for the `raw_tx_resumed` completion unconditionally and
no START-RAW has ever completed it. -/
theorem C5_not_stopped_still_blocks_counterexample :
    freshSipc.raw_tx_suspended = false ∧
    sipc_do_tx freshSipc SAMSUNG_IPC_FORMAT_RAW true false =
      TxStep.gate_wait_blocked := by
  decide

theorem mapped_netdev_stopped (b : Bool) (l : List SipcIoChannel)
    (c : SipcIoChannel)
    (hc : c ∈ l.map (fun c =>
      if c.has_netdev ∧ c.chtype = SAMSUNG_IPC_TYPE_NETDEV then
        { c with netdev_stopped := b }
      else c))
    (h1 : c.has_netdev = true) (h2 : c.chtype = SAMSUNG_IPC_TYPE_NETDEV) :
    c.netdev_stopped = b := by
  rcases List.mem_map.1 hc with ⟨c0, -, hmap⟩
  by_cases hcase : c0.has_netdev ∧ c0.chtype = SAMSUNG_IPC_TYPE_NETDEV
  · rw [if_pos hcase] at hmap
    rw [← hmap]
  · rw [if_neg hcase] at hmap
    subst hmap
    exact absurd ⟨h1, h2⟩ hcase

theorem sipc_stop_suspended (s : SamsungIpc) :
    (sipc_rx_one_cmd s LINK_CMD_STOP_RAW).raw_tx_suspended = true := by
  unfold sipc_rx_one_cmd
  rw [if_pos rfl]

theorem sipc_stop_done (s : SamsungIpc) :
    (sipc_rx_one_cmd s LINK_CMD_STOP_RAW).raw_tx_resumed_done = false := by
  unfold sipc_rx_one_cmd
  rw [if_pos rfl]

theorem sipc_stop_channels (s : SamsungIpc) :
    (sipc_rx_one_cmd s LINK_CMD_STOP_RAW).channels =
      s.channels.map (fun c =>
        if c.has_netdev ∧ c.chtype = SAMSUNG_IPC_TYPE_NETDEV then
          { c with netdev_stopped := true }
        else c) := by
  unfold sipc_rx_one_cmd
  rw [if_pos rfl]

theorem sipc_start_suspended (s : SamsungIpc) :
    (sipc_rx_one_cmd s LINK_CMD_START_RAW).raw_tx_suspended = false := by
  unfold sipc_rx_one_cmd
  rw [if_neg (by decide), if_pos rfl]

theorem sipc_start_done (s : SamsungIpc) :
    (sipc_rx_one_cmd s LINK_CMD_START_RAW).raw_tx_resumed_done = true := by
  unfold sipc_rx_one_cmd
  rw [if_neg (by decide), if_pos rfl]

theorem sipc_start_channels (s : SamsungIpc) :
    (sipc_rx_one_cmd s LINK_CMD_START_RAW).channels =
      s.channels.map (fun c =>
        if c.has_netdev ∧ c.chtype = SAMSUNG_IPC_TYPE_NETDEV then
          { c with netdev_stopped := false }
        else c) := by
  unfold sipc_rx_one_cmd
  rw [if_neg (by decide), if_pos rfl]

/-- C5 (amended): STOP-RAW pauses every netdev channel, closes the gate
and marks RAW tx suspended; while stopped a RAW transmit from interrupt
context fails with Busy and from process context performs an
UNinterruptible wait on the gate, which a START-RAW (resuming the queues,
clearing the flag and completing the gate) releases; but the gate is
waited on by every RAW/MULTI_RAW transmission regardless of the suspended
flag, so before the first START-RAW a RAW transmit blocks even though not
stopped; non-RAW formats never touch the gate. -/
theorem C5_flow_control_amended (s : SamsungIpc) :
    ((sipc_rx_one_cmd s LINK_CMD_STOP_RAW).raw_tx_suspended = true ∧
     (sipc_rx_one_cmd s LINK_CMD_STOP_RAW).raw_tx_resumed_done = false ∧
     (∀ c ∈ (sipc_rx_one_cmd s LINK_CMD_STOP_RAW).channels,
        c.has_netdev = true → c.chtype = SAMSUNG_IPC_TYPE_NETDEV →
          c.netdev_stopped = true)) ∧
    (sipc_do_tx (sipc_rx_one_cmd s LINK_CMD_STOP_RAW) SAMSUNG_IPC_FORMAT_RAW
        true true = TxStep.err_ebusy) ∧
    (sipc_do_tx (sipc_rx_one_cmd s LINK_CMD_STOP_RAW) SAMSUNG_IPC_FORMAT_RAW
        true false = TxStep.gate_wait_blocked) ∧
    ((sipc_rx_one_cmd s LINK_CMD_START_RAW).raw_tx_suspended = false ∧
     (sipc_rx_one_cmd s LINK_CMD_START_RAW).raw_tx_resumed_done = true ∧
     (∀ c ∈ (sipc_rx_one_cmd s LINK_CMD_START_RAW).channels,
        c.has_netdev = true → c.chtype = SAMSUNG_IPC_TYPE_NETDEV →
          c.netdev_stopped = false)) ∧
    (sipc_do_tx (sipc_rx_one_cmd s LINK_CMD_START_RAW) SAMSUNG_IPC_FORMAT_RAW
        true false = TxStep.transmit) ∧
    (s.raw_tx_suspended = false → s.raw_tx_resumed_done = false →
      sipc_do_tx s SAMSUNG_IPC_FORMAT_RAW true false = TxStep.gate_wait_blocked) ∧
    (sipc_do_tx s SAMSUNG_IPC_FORMAT_FMT true false = TxStep.transmit) := by
  refine ⟨⟨sipc_stop_suspended s, sipc_stop_done s, ?_⟩, ?_, ?_,
    ⟨sipc_start_suspended s, sipc_start_done s, ?_⟩, ?_, ?_, ?_⟩
  · intro c hc h1 h2
    rw [sipc_stop_channels s] at hc
    exact mapped_netdev_stopped true s.channels c hc h1 h2
  · unfold sipc_do_tx
    rw [if_neg (by decide), if_pos (by decide),
        if_pos ⟨sipc_stop_suspended s, rfl⟩]
  · unfold sipc_do_tx
    rw [if_neg (by decide), if_pos (by decide),
        if_neg (by rintro ⟨-, h⟩; exact Bool.false_ne_true h), if_neg ?_]
    intro h
    rw [sipc_stop_done s] at h
    exact Bool.false_ne_true h
  · intro c hc h1 h2
    rw [sipc_start_channels s] at hc
    exact mapped_netdev_stopped false s.channels c hc h1 h2
  · unfold sipc_do_tx
    rw [if_neg (by decide), if_pos (by decide), if_neg ?_,
        if_pos (sipc_start_done s)]
    rintro ⟨h, -⟩
    rw [sipc_start_suspended s] at h
    exact Bool.false_ne_true h
  · intro h1 h2
    unfold sipc_do_tx
    rw [if_neg (by decide), if_pos (by decide),
        if_neg (by rintro ⟨h, -⟩; rw [h1] at h; exact Bool.false_ne_true h),
        if_neg (by rw [h2]; exact Bool.false_ne_true)]
  · unfold sipc_do_tx
    rw [if_neg (by decide), if_neg (by decide)]

/-- A concrete netdev RAW channel and a one-channel freshly probed state. -/
def testChan : SipcIoChannel :=
  ⟨SAMSUNG_IPC_FORMAT_RAW, SAMSUNG_IPC_TYPE_NETDEV, 0x25, true, false, [], 0,
   fun _ => none, [], 0, 0, 0, none⟩

def testSipc : SamsungIpc := ⟨[testChan], 40, false, false⟩

/-- Witness for `C5_flow_control_amended` at the concrete one-channel state:
the gate-blocking conjunct with its hypotheses discharged, and the
netdev-queue-stopped conjunct at the concrete channel after STOP-RAW. -/
theorem C5_flow_control_amended_witness :
    sipc_do_tx testSipc SAMSUNG_IPC_FORMAT_RAW true false =
      TxStep.gate_wait_blocked ∧
    ({ testChan with netdev_stopped := true } : SipcIoChannel).netdev_stopped
      = true :=
  ⟨(C5_flow_control_amended testSipc).2.2.2.2.2.1 rfl rfl,
   (C5_flow_control_amended testSipc).1.2.2 _
     (by rw [sipc_stop_channels testSipc]; exact List.Mem.head _) rfl rfl⟩

/-! ## Pipe transmit path (`drivers/net/sipc/modem_io.c`) -/

/-- `modem_update_pipe` from `modem_io.c`. -/
def modem_update_pipe (p : MPipe) : MPipe :=
  { p with
    tx := { p.tx with avail := fifo_space p.tx },
    rx := { p.rx with avail := fifo_count p.rx } }

/-- How one pass of `modem_pipe_send`'s space wait resolved: timeout
(`wait_event_interruptible_timeout` returned 0 → `-ENODEV`), interruption
(negative return), or woken with the concurrently updated state. -/
inductive SendWait where
  | timeout
  | interrupted (e : Int)
  | resumed (mc : Modemctl) (pipe : MPipe)

/-- The oracles one iteration of `modem_pipe_send`'s retry loop consumes:
how its `modem_acquire_mmio` resolves and how its space wait resolves. -/
structure SendOracle where
  acq : MmioWait
  wait : SendWait

/-- The `for (;;)` retry loop of `modem_pipe_send`, one iteration per
oracle (the loop can iterate unboundedly; theorems only use runs within
the given oracle budget, and exhaustion returns the loop's `-ENODEV`). -/
def modem_pipe_send_loop :
    List SendOracle → Modemctl → MPipe → List Nat →
      Modemctl × MPipe × Except Int Unit
  | [], mc, pipe, _ => (mc, pipe, Except.error (-19))
  | o :: os, mc, pipe, data =>
    if (modem_acquire_mmio mc o.acq).2 ≠ 0 then
      ((modem_acquire_mmio mc o.acq).1, pipe,
        Except.error (modem_acquire_mmio mc o.acq).2)
    else
      let mc1 := (modem_acquire_mmio mc o.acq).1
      let p1 := modem_update_pipe pipe
      if data.length ≤ p1.tx.avail then
        let p2 := modem_update_pipe { p1 with tx := (fifo_write p1.tx data).1 }
        (modem_release_mmio mc1 p2.tx.bits, p2, Except.ok ())
      else
        match o.wait with
        | SendWait.timeout => (modem_release_mmio mc1 0, p1, Except.error (-19))
        | SendWait.interrupted e => (modem_release_mmio mc1 0, p1, Except.error e)
        | SendWait.resumed mcW pW => modem_pipe_send_loop os mcW pW data

/-- `modem_pipe_send` from `modem_io.c`: the oversize check
`skb->len >= pipe->tx.size - 1` comes before everything else. -/
def modem_pipe_send (os : List SendOracle) (mc : Modemctl) (pipe : MPipe)
    (data : List Nat) : Modemctl × MPipe × Except Int Unit :=
  if pipe.tx.size - 1 ≤ data.length then (mc, pipe, Except.error (-22))
  else modem_pipe_send_loop os mc pipe data

/-- C10: a message whose length is at least `tx capacity - 1` is rejected
with `-EINVAL` immediately — the returned arbiter and pipe state are the
inputs, untouched, so no shared-memory access is acquired and no ring is
mutated; and (second conjunct) a ring under the driver invariant never
holds more than `capacity - 1` readable bytes, so every accepted message
fits. -/
theorem C10_pipe_send_rejects_oversize (os : List SendOracle) (mc : Modemctl)
    (pipe : MPipe) (data : List Nat)
    (h : pipe.tx.size - 1 ≤ data.length) :
    modem_pipe_send os mc pipe data = (mc, pipe, Except.error (-22)) ∧
    (∀ (q : MFifo) (k : Nat), MFifoInv q k → fifo_count q ≤ q.size - 1) := by
  constructor
  · unfold modem_pipe_send
    rw [if_pos h]
  · intro q k inv
    have := fifo_space_bound inv
    omega

/-- Witness for `C10_pipe_send_rejects_oversize`: a 7-byte message on a
capacity-8 pipe is rejected without touching any state. -/
theorem C10_pipe_send_rejects_oversize_witness :
    modem_pipe_send [] testMC testPipe [1, 2, 3, 4, 5, 6, 7] =
      (testMC, testPipe, Except.error (-22)) ∧
    (∀ (q : MFifo) (k : Nat), MFifoInv q k → fifo_count q ≤ q.size - 1) :=
  C10_pipe_send_rejects_oversize [] testMC testPipe [1, 2, 3, 4, 5, 6, 7]
    (by decide)

/-! ## Frame decoder (`sipc_receive_callback` and helpers, `core.c`)

`buf`/`bufsz` are a pointer into byte memory `mem : Nat → Nat` and a
`size_t` length; pointer and `size_t` arithmetic wrap modulo `2 ^ 64`
exactly where the C computation does.  Reads past the supplied buffer are
reads of `mem` at the overrun addresses — which the buggy bookkeeping of
the C function does perform. -/

def U64 : Nat := 2 ^ 64

/-- C `size_t` subtraction / negative-`int`-to-`size_t` wrap-around. -/
def u64subN (a b : Nat) : Nat := (a % U64 + (U64 - b % U64)) % U64

/-- Conversion of a C `int` value to `size_t`. -/
def toSizeT (i : Int) : Nat := (i.emod ((U64 : Nat) : Int)).toNat

/-- `memcpy(dst + off, src, src.len)` on a fixed-size byte list. -/
def listWrite (dst : List Nat) (off : Nat) (src : List Nat) : List Nat :=
  (List.range dst.length).map (fun i =>
    if off ≤ i ∧ i < off + src.length then src.getD (i - off) 0 else dst.getD i 0)

/-- Read `len` bytes of memory starting at (wrapped) pointer `ptr`. -/
def memread (mem : Nat → Nat) (ptr len : Nat) : List Nat :=
  (List.range len).map (fun i => mem ((ptr + i) % U64))

def le16_at (b : List Nat) (i : Nat) : Nat := b.getD i 0 + 256 * b.getD (i + 1) 0

def le32_at (b : List Nat) (i : Nat) : Nat :=
  b.getD i 0 + 256 * b.getD (i + 1) 0 + 65536 * b.getD (i + 2) 0 +
    16777216 * b.getD (i + 3) 0

/-- The channel with index `ci` (driver arrays are trusted in range). -/
def chAt (s : SamsungIpc) (ci : Nat) : SipcIoChannel := s.channels.getD ci default

def setCh (s : SamsungIpc) (ci : Nat) (c : SipcIoChannel) : SamsungIpc :=
  { s with channels := s.channels.set ci c }

def SAMSUNG_IPC_VERSION_40 : Nat := 40

def SAMSUNG_IPC_VERSION_42 : Nat := 42

/-- `sipc_get_message_size` from `core.c`, reading the declared length out
of the accumulated header-union bytes (little-endian fields at their
struct offsets). -/
def sipc_get_message_size (version format : Nat) (hb : List Nat) : Nat :=
  if format = SAMSUNG_IPC_FORMAT_FMT then
    (if version = SAMSUNG_IPC_VERSION_42 then le16_at hb 0 &&& 0x3fff
     else le16_at hb 0)
  else if format = SAMSUNG_IPC_FORMAT_RAW ∨ format = SAMSUNG_IPC_FORMAT_MULTI_RAW then
    le32_at hb 0
  else if format = SAMSUNG_IPC_FORMAT_RFS then le32_at hb 0
  else 0

/-- The header-accumulation step of `sipc_hdlc_header_check`:
`len = min(bufsz, head_size - hdr->len); memcpy(&hdr->sipc_header, buf, len);
hdr->len += len; done += len;` — note the `memcpy` writes to offset 0 of
the header staging area, NOT to offset `hdr->len`: a header arriving in
several chunks has each chunk copied over the start of the union. -/
def hdlc_hdr_copy (ch : SipcIoChannel) (mem : Nat → Nat) (ptr bufsz format : Nat)
    (done0 : Nat) : SipcIoChannel × Int :=
  if ch.hdr_len < sipc_get_header_size format then
    ({ ch with
       hdr_bytes := listWrite ch.hdr_bytes 0
         (memread mem ptr (min bufsz (sipc_get_header_size format - ch.hdr_len))),
       hdr_len := ch.hdr_len + min bufsz (sipc_get_header_size format - ch.hdr_len) },
     ((done0 + min bufsz (sipc_get_header_size format - ch.hdr_len) : Nat) : Int))
  else (ch, (done0 : Int))

/-- `sipc_hdlc_header_check` from `core.c`: consume the start byte when no
frame is in progress (`-EBADMSG` if it is not `HDLC_START`), then
accumulate header bytes; returns the updated channel and the `int` count
of consumed bytes (or the negative error). -/
def sipc_hdlc_header_check (ch : SipcIoChannel) (mem : Nat → Nat)
    (ptr bufsz format : Nat) : SipcIoChannel × Int :=
  if ch.hdr_start = 0 then
    if mem (ptr % U64) = HDLC_START then
      hdlc_hdr_copy { ch with hdr_start := HDLC_START, hdr_len := 0 } mem
        ((ptr + 1) % U64) (u64subN bufsz 1) format 1
    else (ch, -74)
  else hdlc_hdr_copy ch mem ptr bufsz format 0

/-- `do_raw_rx` from `core.c`: demultiplex by `0x20 | encoded id` (the id
is byte 4 of the pending raw header) within format RAW; missing channel
drops the message with `-ENODEV`. -/
def do_raw_rx (s : SamsungIpc) (ci : Nat) (skb : SipcSkb) : SamsungIpc × Int :=
  match find_io_channel s.channels
      (((0x20 ||| (chAt s ci).hdr_bytes.getD 4 0 : Nat) : Int))
      SAMSUNG_IPC_FORMAT_RAW with
  | none => (s, -19)
  | some ri =>
    (setCh s ri { (chAt s ri) with
        rx_queue := (chAt s ri).rx_queue ++ [skb.data] }, 0)

/-- `do_fmt_rx` from `core.c`: per-fragmentation-id reassembly of FMT
frames; the control byte (and so the continuation bit) is read from the
channel's pending header, except in the fresh-allocation branch where the
code re-reads a `fmt_header` from the start of the incoming data. -/
def do_fmt_rx (s : SamsungIpc) (ci : Nat) (rx : SipcSkb) : SamsungIpc × Int :=
  match (chAt s ci).fmt_skb ((chAt s ci).hdr_bytes.getD 2 0 &&& 0x7f) with
  | some skb0 =>
    if (chAt s ci).hdr_bytes.getD 2 0 &&& 0x80 ≠ 0 then
      (setCh s ci { (chAt s ci) with
          fmt_skb := fun j =>
            if j = (chAt s ci).hdr_bytes.getD 2 0 &&& 0x7f then
              some ⟨skb0.cap, skb0.data ++ rx.data⟩
            else (chAt s ci).fmt_skb j }, 0)
    else
      (setCh s ci { (chAt s ci) with
          rx_queue := (chAt s ci).rx_queue ++ [skb0.data ++ rx.data],
          fmt_skb := fun j =>
            if j = (chAt s ci).hdr_bytes.getD 2 0 &&& 0x7f then none
            else (chAt s ci).fmt_skb j,
          wakeups := (chAt s ci).wakeups + 1 }, 0)
  | none =>
    if (chAt s ci).hdr_bytes.getD 2 0 &&& 0x80 = 0 then
      (setCh s ci { (chAt s ci) with
          rx_queue := (chAt s ci).rx_queue ++ [rx.data],
          wakeups := (chAt s ci).wakeups + 1 }, 0)
    else if rx.data.length < 3 then
      (setCh s ci { (chAt s ci) with
          fmt_skb := fun j =>
            if j = (chAt s ci).hdr_bytes.getD 2 0 &&& 0x7f then
              some ⟨MAX_MULTI_RX_SIZE, []⟩
            else (chAt s ci).fmt_skb j }, -22)
    else if rx.data.getD 2 0 &&& 0x80 ≠ 0 then
      (setCh s ci { (chAt s ci) with
          fmt_skb := fun j =>
            if j = (chAt s ci).hdr_bytes.getD 2 0 &&& 0x7f then
              some ⟨MAX_MULTI_RX_SIZE, rx.data⟩
            else (chAt s ci).fmt_skb j }, 0)
    else
      (setCh s ci { (chAt s ci) with
          rx_queue := (chAt s ci).rx_queue ++ [rx.data],
          fmt_skb := fun j =>
            if j = (chAt s ci).hdr_bytes.getD 2 0 &&& 0x7f then none
            else (chAt s ci).fmt_skb j,
          wakeups := (chAt s ci).wakeups + 1 }, 0)

/-- `sipc_do_rx` from `core.c`: dispatch one reassembled segment. -/
def sipc_do_rx (s : SamsungIpc) (ci : Nat) (skb : SipcSkb) : SamsungIpc × Int :=
  if (chAt s ci).format = SAMSUNG_IPC_FORMAT_FMT then
    (if s.version = SAMSUNG_IPC_VERSION_42 then (s, 0) else do_fmt_rx s ci skb)
  else if (chAt s ci).format = SAMSUNG_IPC_FORMAT_MULTI_RAW then do_raw_rx s ci skb
  else
    (setCh s ci { (chAt s ci) with
        rx_queue := (chAt s ci).rx_queue ++ [skb.data],
        wakeups := (chAt s ci).wakeups + 1 }, 0)

/-- The `while (bufsz > 0)` copy loop of `sipc_receive_callback` (lines
401–428 of `core.c`): append `min(bufsz, rest, tailroom, MAX_RX_SIZE)`
bytes to the pending skb, bump `frag_len`, and when the chunk fills the
current skb but more of the message remains, deliver it with `sipc_do_rx`
and allocate the next chunk skb.  Fuel bounds the iteration count; every
call site passes more fuel than the loop can iterate (each continuing
iteration consumes at least one byte of `bufsz`), so the fuel-exhaustion
branch is never taken on reachable inputs.  Returns the state, the
advanced pointer and the remaining `bufsz`. -/
def rx_copy_loop : Nat → SamsungIpc → Nat → (Nat → Nat) → Nat → Nat → Nat →
    SamsungIpc × Nat × Nat
  | 0, s, _, _, ptr, bufsz, _ => (s, ptr, bufsz)
  | fuel + 1, s, ci, mem, ptr, bufsz, rest =>
    if bufsz = 0 then (s, ptr, bufsz)
    else
      let skb := (chAt s ci).pending_rx_skb.getD ⟨0, []⟩
      let l := min (min (min bufsz rest) (skb.cap - skb.data.length)) MAX_RX_SIZE
      let skb1 : SipcSkb := ⟨skb.cap, skb.data ++ memread mem ptr l⟩
      let s1 := setCh s ci { (chAt s ci) with
        pending_rx_skb := some skb1,
        frag_len := (chAt s ci).frag_len + l }
      if bufsz - l = 0 ∨ rest - l = 0 then (s1, (ptr + l) % U64, bufsz - l)
      else
        let s2 := (sipc_do_rx s1 ci skb1).1
        let s3 := setCh s2 ci { (chAt s2 ci) with
          pending_rx_skb := some ⟨min (rest - l) MAX_RX_SIZE, []⟩ }
        rx_copy_loop fuel s3 ci mem ((ptr + l) % U64) (bufsz - l) (rest - l)

/-- Phase of the frame state machine in `sipc_receive_callback`: the
`next_frame:` label (header parsing) or the `skip_header_check:` label
(payload accumulation). -/
inductive RxPhase where
  | next_frame : RxPhase
  | payload : RxPhase

/-- The frame state machine of `sipc_receive_callback` (`core.c` lines
357–457) for non-CMD formats, acting on dispatch channel `ci`.

`next_frame`: run `sipc_hdlc_header_check`; the result is assigned to the
`size_t` variable `len`, so the subsequent `if (len < 0)` test is dead and
a negative error wraps to a huge unsigned value before `buf += len;
bufsz -= len`.

`payload`: `data_size = sipc_get_message_size(chan) - header_size`
(`size_t`, so a declared size below the header size wraps), allocate the
pending skb if absent (for RFS, first deliver a separate header skb), run
the copy loop, then the end-of-frame epilogue: return while waiting for
more data, reject a byte that is not `HDLC_END`, otherwise deliver the
pending skb, clear the reassembly header and — because `bufsz` was never
decremented for the END byte — loop back to `next_frame` with `bufsz`
still nonzero, re-parsing past the consumed frame.

The fuel only bounds the `goto next_frame` back-edge; call sites pass
`bufsz + 2`, more than the reachable number of phase transitions. -/
def rx_machine : Nat → SamsungIpc → Nat → (Nat → Nat) → Nat → Nat → Nat →
    RxPhase → SamsungIpc
  | 0, s, _, _, _, _, _, _ => s
  | fuel + 1, s, ci, mem, ptr, bufsz, format, RxPhase.next_frame =>
    let res := sipc_hdlc_header_check (chAt s ci) mem ptr bufsz format
    let lenU := toSizeT res.2
    if lenU < 0 then setCh s ci res.1
    else
      let s1 := setCh s ci res.1
      let ptr1 := (ptr + lenU) % U64
      let bufsz1 := u64subN bufsz lenU
      if bufsz1 = 0 then s1
      else rx_machine fuel s1 ci mem ptr1 bufsz1 format RxPhase.payload
  | fuel + 1, s, ci, mem, ptr, bufsz, format, RxPhase.payload =>
    let header_size := sipc_get_header_size format
    let data_size :=
      u64subN (sipc_get_message_size s.version format (chAt s ci).hdr_bytes)
        header_size
    let rest_size := u64subN data_size (chAt s ci).frag_len
    let sA :=
      match (chAt s ci).pending_rx_skb with
      | some _ => s
      | none =>
        let l0 := min (min data_size MAX_RX_SIZE) rest_size
        let sR :=
          if format = SAMSUNG_IPC_FORMAT_RFS then
            (sipc_do_rx s ci ⟨header_size, (chAt s ci).hdr_bytes.take header_size⟩).1
          else s
        setCh sR ci { (chAt sR ci) with pending_rx_skb := some ⟨l0, []⟩ }
    let out := rx_copy_loop (bufsz + 1) sA ci mem ptr bufsz rest_size
    let s2 := out.1
    let ptr2 := out.2.1
    let bufsz2 := out.2.2
    if bufsz2 = 0 ∧ (chAt s2 ci).frag_len ≠ 0 then s2
    else if mem (ptr2 % U64) ≠ HDLC_END then s2
    else
      let s3 := (sipc_do_rx s2 ci ((chAt s2 ci).pending_rx_skb.getD ⟨0, []⟩)).1
      let s4 := setCh s3 ci { (chAt s3 ci) with
        pending_rx_skb := none,
        hdr_bytes := [0, 0, 0, 0, 0, 0, 0, 0],
        hdr_len := 0,
        frag_len := 0,
        hdr_start := 0 }
      if bufsz2 ≠ 0 then
        rx_machine fuel s4 ci mem ((ptr2 + 1) % U64) bufsz2 format RxPhase.next_frame
      else s4

/-- The command stream seen by `sipc_rx_cmd`: `unsigned short` reads at
`buf, buf+2, …` while the cursor is below `buf + bufsz`. -/
def sipc_cmds_of (mem : Nat → Nat) (ptr bufsz : Nat) : List Nat :=
  (List.range ((bufsz + 1) / 2)).map (fun i =>
    mem ((ptr + 2 * i) % U64) + 256 * mem ((ptr + 2 * i + 1) % U64))

/-- `sipc_receive_callback` from `core.c`: CMD buffers go to
`sipc_rx_cmd`; otherwise the frame machine runs on the first channel of
the format (packet dropped when there is none), entering at
`skip_header_check` when a fragmented message is pending. -/
def sipc_receive_callback (s : SamsungIpc) (mem : Nat → Nat)
    (ptr bufsz format : Nat) : SamsungIpc :=
  if format = SAMSUNG_IPC_FORMAT_CMD then
    sipc_rx_cmd s (sipc_cmds_of mem ptr bufsz)
  else
    match find_io_channel s.channels (-1) format with
    | none => s
    | some ci =>
      if (chAt s ci).frag_len ≠ 0 then
        rx_machine (bufsz + 2) s ci mem ptr bufsz format RxPhase.payload
      else
        rx_machine (bufsz + 2) s ci mem ptr bufsz format RxPhase.next_frame

/-- The HDLC-framed MULTI_RAW frame of Scenario 2: START, raw header
(len = 11 = 6-byte header + 5-byte payload, channel id 5, control 0),
payload "hello", END. -/
def c7_frame : List Nat :=
  [0x7f, 0x0b, 0x00, 0x00, 0x00, 0x05, 0x00, 0x68, 0x65, 0x6c, 0x6c, 0x6f, 0x7e]

/-- Link-layer receive memory holding the frame at address 0. -/
def c7_mem : Nat → Nat := fun i => c7_frame.getD i 0

/-- The MULTI_RAW dispatch channel (`find_io_channel(sipc, -1, format)`
target), freshly probed (zeroed reassembly state). -/
def c7_dispatch : SipcIoChannel :=
  ⟨SAMSUNG_IPC_FORMAT_MULTI_RAW, SAMSUNG_IPC_TYPE_DUMMY, 1, false, false, [], 0,
   fun _ => none, [0, 0, 0, 0, 0, 0, 0, 0], 0, 0, 0, none⟩

/-- The RAW channel with encoded id `0x20 | 5 = 0x25`. -/
def c7_chan25 : SipcIoChannel :=
  ⟨SAMSUNG_IPC_FORMAT_RAW, SAMSUNG_IPC_TYPE_MISC, 0x25, false, false, [], 0,
   fun _ => none, [0, 0, 0, 0, 0, 0, 0, 0], 0, 0, 0, none⟩

def c7_sipc : SamsungIpc := ⟨[c7_dispatch, c7_chan25], SAMSUNG_IPC_VERSION_40, false, true⟩

/-- The dispatch channel with a parsed raw header naming channel 5. -/
def c7_dispatch5 : SipcIoChannel :=
  { c7_dispatch with hdr_bytes := [0x0b, 0, 0, 0, 0x05, 0, 0, 0] }

def c7_sipc5 : SamsungIpc := ⟨[c7_dispatch5, c7_chan25], SAMSUNG_IPC_VERSION_40, false, true⟩

/-- The frame delivered to the decoder in a single receive callback. -/
def c7_run_bulk : SamsungIpc :=
  sipc_receive_callback c7_sipc c7_mem 0 13 SAMSUNG_IPC_FORMAT_MULTI_RAW

/-- The same frame delivered one byte per receive callback. -/
def c7_run_bytewise : SamsungIpc :=
  (List.range 13).foldl
    (fun s i => sipc_receive_callback s c7_mem i 1 SAMSUNG_IPC_FORMAT_MULTI_RAW)
    c7_sipc

/-- C7: the demultiplexing rule itself is as claimed — `do_raw_rx` queues
the reassembled message on the RAW channel whose encoded id is
`0x20 | raw-header channel` and on no other channel, and drops it with
`-ENODEV` when no such channel exists.  But the decoder around it breaks
the claimed any-fragmentation reassembly on the concrete Scenario-2 frame:
delivered whole, exactly one 5-byte "hello" message reaches RAW/0x25, yet
`bufsz` is never decremented for the END byte, so the parser re-enters
`next_frame` one byte past the frame, the `-EBADMSG` result wraps through
`size_t` (the `len < 0` check is dead) and the channel is left mid-"message"
with `frag_len = 75` of garbage; delivered byte-by-byte, each header chunk
is `memcpy`'d to offset 0 of the header union instead of offset `hdr->len`,
the declared length reads as 0, `data_size` wraps to `2^64 - 6`, and NO
message is ever enqueued on RAW/0x25 — the payload and END byte are
swallowed into a never-completing pending skb (`frag_len = 6`). -/
theorem C7_raw_demux_divergence :
    (∀ (s : SamsungIpc) (ci ri : Nat) (skb : SipcSkb),
      find_io_channel s.channels
          (((0x20 ||| (chAt s ci).hdr_bytes.getD 4 0 : Nat) : Int))
          SAMSUNG_IPC_FORMAT_RAW = some ri →
      do_raw_rx s ci skb =
        (setCh s ri { (chAt s ri) with
            rx_queue := (chAt s ri).rx_queue ++ [skb.data] }, 0)) ∧
    (∀ (s : SamsungIpc) (ci : Nat) (skb : SipcSkb),
      find_io_channel s.channels
          (((0x20 ||| (chAt s ci).hdr_bytes.getD 4 0 : Nat) : Int))
          SAMSUNG_IPC_FORMAT_RAW = none →
      do_raw_rx s ci skb = (s, -19)) ∧
    ((chAt c7_run_bulk 1).rx_queue = [[0x68, 0x65, 0x6c, 0x6c, 0x6f]] ∧
     (chAt c7_run_bulk 0).frag_len = 75) ∧
    ((chAt c7_run_bytewise 1).rx_queue = [] ∧
     (chAt c7_run_bytewise 0).frag_len = 6) := by
  refine ⟨?_, ?_, ?_, ?_⟩
  · intro s ci ri skb h
    unfold do_raw_rx
    rw [h]
  · intro s ci skb h
    unfold do_raw_rx
    rw [h]
  · exact ⟨by decide, by decide⟩
  · exact ⟨by decide, by decide⟩

/-- Closed instance of the two conditional demux conjuncts of C7: with a
parsed raw header naming channel 5 the message lands on RAW/0x25
(index 1); with a zero header (target `0x20`, absent) it is dropped
with `-ENODEV`. -/
theorem C7_raw_demux_divergence_witness :
    (find_io_channel c7_sipc5.channels
        (((0x20 ||| (chAt c7_sipc5 0).hdr_bytes.getD 4 0 : Nat) : Int))
        SAMSUNG_IPC_FORMAT_RAW = some 1 ∧
      do_raw_rx c7_sipc5 0 ⟨5, [0x68, 0x65, 0x6c, 0x6c, 0x6f]⟩ =
        (setCh c7_sipc5 1 { (chAt c7_sipc5 1) with
            rx_queue := (chAt c7_sipc5 1).rx_queue ++
              [[0x68, 0x65, 0x6c, 0x6c, 0x6f]] }, 0)) ∧
    (find_io_channel c7_sipc.channels
        (((0x20 ||| (chAt c7_sipc 0).hdr_bytes.getD 4 0 : Nat) : Int))
        SAMSUNG_IPC_FORMAT_RAW = none ∧
      do_raw_rx c7_sipc 0 ⟨1, [0x68]⟩ = (c7_sipc, -19)) :=
  ⟨⟨by decide,
    C7_raw_demux_divergence.1 c7_sipc5 0 1 ⟨5, [0x68, 0x65, 0x6c, 0x6c, 0x6f]⟩
      (by decide)⟩,
   ⟨by decide,
    C7_raw_demux_divergence.2.1 c7_sipc 0 ⟨1, [0x68]⟩ (by decide)⟩⟩
